import Mathlib

/-!
Verification development for `src/taipy/core/config/scenario_config.py`
(class `ScenarioConfig`).

The Python class is embedded shallowly:

* Python runtime values that can appear in a serialized scenario document or
  in a configuration field are modelled by the inductive type `Val`;
* Python dictionaries (string-keyed, insertion ordered) are modelled as
  association lists `List (String × α)` with the operations `getD`,
  `containsKey`, `eraseKey`, `setKey` and `updateD` mirroring `d[k]`,
  `k in d`, `d.pop(k, dflt)` and `d.update(...)` / `{**a, **b}`;
* `defaultdict(list)` versus a plain `dict` for the comparator mapping is
  tracked by the Boolean `isDefault` flag of the `Val.cmap` constructor;
* fallible Python code (raising `InvalidIdentifier`, `KeyError`,
  `TypeError`, `AttributeError`) is modelled with `Option`, `none` standing
  for a raised exception;
* the comparator handles (Python callables, only ever stored and compared by
  identity) are a type parameter `C`.
-/

namespace TaipyScenario

/-- Modelled from the spec: the `Frequency` enumeration is defined outside
this repository; the spec describes it as an optional enumerated recurrence
marker for the cycle of a scenario. -/
inductive Frequency where
  | daily
  | weekly
  | monthly
  | quarterly
  | yearly
deriving DecidableEq, Repr

/-- Modelled from the spec: `DataNodeConfig` is an external sibling entity
type referenced by id. Only its identity is relevant here. -/
structure DataNodeConfig where
  id : String
deriving DecidableEq, Repr

/-- Modelled from the spec: `TaskConfig` is an external sibling entity type;
it exposes ordered `inputs` and `outputs` (data-node references) read during
the derived-set computation. -/
structure TaskConfig where
  id : String
  inputs : List DataNodeConfig
  outputs : List DataNodeConfig
deriving DecidableEq, Repr

/-- Modelled from the spec: `PipelineConfig` is an external, legacy-only
entity type exposing an ordered `tasks` list, consulted during migration. -/
structure PipelineConfig where
  id : String
  tasks : List TaskConfig
deriving DecidableEq, Repr

/-- A value of a comparator mapping as it may arrive in input:
either a single handle or a list of handles (the constructor checks
`isinstance(v, list)`). -/
inductive CVal (C : Type) where
  | one (c : C)
  | many (cs : List C)
deriving DecidableEq, Repr

/-- Python runtime values appearing in scenario documents and configuration
fields.  `cmap isDefault entries` is a comparator mapping; `isDefault` is
`true` exactly for a `defaultdict(list)` and `false` for a plain `dict`. -/
inductive Val (C : Type) where
  | null
  | str (s : String)
  | nat (n : Nat)
  | freq (f : Frequency)
  | task (t : TaskConfig)
  | dataNode (d : DataNodeConfig)
  | list (xs : List (Val C))
  | cmap (isDefault : Bool) (entries : List (String × CVal C))
deriving Repr

/-- A Python dictionary document: string keys, insertion ordered. -/
abbrev Doc (C : Type) := List (String × Val C)

section DictOps

variable {α : Type}

/-- `d.get(k)` on a Python dict: value at the first (unique) entry for `k`. -/
def getD (d : List (String × α)) (k : String) : Option α :=
  (d.find? (fun p => p.1 == k)).map (fun p => p.2)

/-- `k in d` on a Python dict. -/
def containsKey (d : List (String × α)) (k : String) : Bool :=
  (getD d k).isSome

/-- Removal of the entry for `k` (the removing half of `d.pop(k, dflt)`). -/
def eraseKey (d : List (String × α)) (k : String) : List (String × α) :=
  d.filter (fun p => p.1 != k)

/-- `d[k] = v` on a Python dict: replace in place when the key is present,
append otherwise. -/
def setKey (d : List (String × α)) (k : String) (v : α) : List (String × α) :=
  if containsKey d k then d.map (fun p => if p.1 == k then (k, v) else p)
  else d ++ [(k, v)]

/-- `d1.update(d2)` / `{**d1, **d2}` on Python dicts. -/
def updateD (d1 d2 : List (String × α)) : List (String × α) :=
  d2.foldl (fun acc p => setKey acc p.1 p.2) d1

end DictOps

/-- Modelled from the spec: the identifier-validation rule (`_validate_id`,
defined outside this repository) accepts exactly valid Python variable
names: a nonempty string whose first character is a letter or an underscore
and whose remaining characters are letters, digits or underscores. -/
def isValidId (s : String) : Bool :=
  match s.toList with
  | [] => false
  | c :: cs => (c.isAlpha || c == '_') && cs.all (fun d => d.isAlphanum || d == '_')

/-- `_validate_id`: returns the identifier unchanged when valid, raises
`InvalidIdentifier` (modelled as `none`) otherwise. -/
def validateId (s : String) : Option String :=
  if isValidId s then some s else none

namespace Val

variable {C : Type}

/-- Python truthiness of a value (`if tasks:` etc.): `None`, empty strings,
zero, empty lists and empty mappings are falsy; everything else is truthy. -/
def truthy : Val C → Bool
  | .null => false
  | .str s => !s.isEmpty
  | .nat n => n != 0
  | .freq _ => true
  | .task _ => true
  | .dataNode _ => true
  | .list xs => !xs.isEmpty
  | .cmap _ es => !es.isEmpty

/-- Whether a value is hashable in Python (usable as a dict lookup key
without raising `TypeError`): lists and dicts are not. -/
def hashable : Val C → Bool
  | .list _ => false
  | .cmap _ _ => false
  | _ => true

/-- Iteration (`for x in v`): lists yield their elements, strings their
characters, mappings their keys; other values raise `TypeError`. -/
def elementsOf : Val C → Option (List (Val C))
  | .list xs => some xs
  | .str s => some (s.toList.map (fun c => Val.str (String.singleton c)))
  | .cmap _ es => some (es.map (fun p => Val.str p.1))
  | _ => none

/-- Whether the value is an actual Python list. -/
def isList : Val C → Bool
  | .list _ => true
  | _ => false

/-- Typed view of a Python list of `TaskConfig` objects. -/
def asTaskList : Val C → Option (List TaskConfig)
  | .list xs => xs.mapM (fun v => match v with | .task t => some t | _ => none)
  | _ => none

/-- Typed view of a Python list of `DataNodeConfig` objects. -/
def asDataNodeList : Val C → Option (List DataNodeConfig)
  | .list xs => xs.mapM (fun v => match v with | .dataNode d => some d | _ => none)
  | _ => none

end Val

/-- The slice of the process-wide `_Config._sections` registry consulted by
`ScenarioConfig`: the task, data-node and pipeline sections, each keyed by
config id. -/
structure Config (C : Type) where
  taskSections : List (String × TaskConfig)
  dataNodeSections : List (String × DataNodeConfig)
  pipelineSections : List (String × PipelineConfig)

/-- `sections.get(ref, None)`: a lookup of a runtime value in a
string-keyed section dict.  Only a string key can be found; any other
(hashable) value yields `None`. -/
def lookupSection {C α : Type} (secs : List (String × α)) : Val C → Option α
  | .str s => getD secs s
  | _ => none

/-- The in-memory state of a `ScenarioConfig` instance.  The four structured
fields hold arbitrary runtime values because `_update` assigns whatever the
incoming document carries; construction normalizes them. -/
structure ScenarioConfig (C : Type) where
  id : String
  _tasks : Val C
  _additional_data_nodes : Val C
  frequency : Val C
  comparators : Val C
  _properties : Doc C

namespace ScenarioConfig

variable {C : Type}

def _PIPELINES_KEY : String := "pipelines"
def _TASKS_KEY : String := "tasks"
def _ADDITIONAL_DATA_NODES_KEY : String := "additional_data_nodes"
def _FREQUENCY_KEY : String := "frequency"
def _COMPARATOR_KEY : String := "comparators"

/-- Modelled from the spec: `Section._ID_KEY` (defined outside this
repository) is the reserved document key holding the id. -/
def _ID_KEY : String := "id"

/-- The `tasks` branch of `__init__`: a truthy single `TaskConfig` is
wrapped into a one-element list, a truthy other value is (shallow-)copied
as is, a falsy value becomes the empty list. -/
def normTasksArg (v : Val C) : Val C :=
  if v.truthy then
    match v with
    | .task t => .list [.task t]
    | x => x
  else .list []

/-- The `additional_data_nodes` branch of `__init__`, analogous to
`normTasksArg` with `DataNodeConfig` in place of `TaskConfig`. -/
def normAdnArg (v : Val C) : Val C :=
  if v.truthy then
    match v with
    | .dataNode d => .list [.dataNode d]
    | x => x
  else .list []

/-- One iteration of the comparator loop of `__init__`: the key is
validated, then the value is extended (list) or appended (single handle)
onto the entry the `defaultdict` provides for that key.  `none` models a
raised `InvalidIdentifier` (and the missing `append`/`extend` on an entry
that is not a list). -/
def compStep (acc : List (String × CVal C)) (kv : String × CVal C) :
    Option (List (String × CVal C)) := do
  let k ← validateId kv.1
  match getD acc k, kv.2 with
  | some (.many cs), .many vs => some (setKey acc k (.many (cs ++ vs)))
  | some (.many cs), .one v => some (setKey acc k (.many (cs ++ [v])))
  | some (.one _), _ => none
  | none, .many vs => some (acc ++ [(k, .many vs)])
  | none, .one v => some (acc ++ [(k, .many [v])])

/-- The comparator loop of `__init__`: starting from a fresh
`defaultdict(list)`, fold `compStep` over the input items. -/
def normComparators (entries : List (String × CVal C)) :
    Option (List (String × CVal C)) :=
  entries.foldlM compStep []

/-- The comparator branch of `__init__` (`if comparators:` followed by the
`.items()` loop): a falsy argument leaves the fresh `defaultdict` empty; a
truthy mapping is folded in with key validation; a truthy non-mapping
raises (`.items()` is missing).  Truthiness is expanded per constructor of
`Val` exactly as `Val.truthy` computes it. -/
def initComparators : Val C → Option (List (String × CVal C))
  | .cmap _ es => if es.isEmpty then some [] else normComparators es
  | .null => some []
  | .str s => if s.isEmpty then some [] else none
  | .nat n => if n == 0 then some [] else none
  | .freq _ => none
  | .task _ => none
  | .dataNode _ => none
  | .list xs => if xs.isEmpty then some [] else none

/-- `ScenarioConfig.__init__`.  `none` models a raised exception: an invalid
comparator key, a comparator argument that is truthy but not a mapping, or
(in `Section.__init__`, modelled from the spec) an invalid `id`. -/
def mk? (id : String) (tasks additionalDataNodes frequency comparators : Val C)
    (properties : Doc C) : Option (ScenarioConfig C) := do
  let cmpEntries ← initComparators comparators
  let vid ← validateId id
  some { id := vid
         _tasks := normTasksArg tasks
         _additional_data_nodes := normAdnArg additionalDataNodes
         frequency := frequency
         comparators := .cmap true cmpEntries
         _properties := properties }

/-- `_clean`: resets the instance in place; note that the comparator mapping
becomes a plain `dict()`, not a `defaultdict(list)`. -/
def _clean (c : ScenarioConfig C) : ScenarioConfig C :=
  { c with _tasks := .list []
           _additional_data_nodes := .list []
           frequency := .null
           comparators := .cmap false []
           _properties := [] }

/-- `_to_dict`: the four reserved keys followed by the property bag merged
last (`{reserved..., **self._properties}`). -/
def _to_dict (c : ScenarioConfig C) : Doc C :=
  updateD
    [(_COMPARATOR_KEY, c.comparators),
     (_TASKS_KEY, c._tasks),
     (_ADDITIONAL_DATA_NODES_KEY, c._additional_data_nodes),
     (_FREQUENCY_KEY, c.frequency)]
    c._properties

/-- One iteration of the reference-resolution loop of `_from_dict` for
tasks and data nodes: the listed id is looked up in the section; a hit is
appended, a miss is silently dropped, an unhashable entry raises
`TypeError`. -/
def resolveStep {α : Type} (secs : List (String × α)) (acc : List α)
    (v : Val C) : Option (List α) :=
  if v.hashable then
    some (match lookupSection secs v with
          | some x => acc ++ [x]
          | none => acc)
  else none

/-- The reference-resolution loop of `_from_dict` for tasks and data
nodes. -/
def resolveRefs {α : Type} (secs : List (String × α)) (ids : List (Val C)) :
    Option (List α) :=
  ids.foldlM (resolveStep secs) []

/-- One iteration of the legacy pipeline-migration loop of `_from_dict`:
for a pipeline id that resolves, all of that pipeline config's tasks are
appended; a miss is dropped. -/
def pipeStep (secs : List (String × PipelineConfig))
    (acc : List TaskConfig) (v : Val C) : Option (List TaskConfig) :=
  if v.hashable then
    some (match lookupSection secs v with
          | some p => acc ++ p.tasks
          | none => acc)
  else none

/-- The legacy pipeline-migration loop of `_from_dict`. -/
def resolvePipelineTasks (secs : List (String × PipelineConfig))
    (ids : List (Val C)) : Option (List TaskConfig) :=
  ids.foldlM (pipeStep secs) []

/-- The walrus pattern `if ids := as_dict.pop(KEY, None):` followed by the
task/data-node resolution loop: a falsy popped value yields the empty list,
a truthy one is iterated and resolved. -/
def resolveListVal {α : Type} (secs : List (String × α)) (v : Val C) :
    Option (List α) :=
  if v.truthy then v.elementsOf.bind (resolveRefs secs) else some []

/-- The walrus pattern for the legacy `pipelines` key followed by the
pipeline-flattening loop. -/
def resolvePipelinesVal (secs : List (String × PipelineConfig)) (v : Val C) :
    Option (List TaskConfig) :=
  if v.truthy then v.elementsOf.bind (resolvePipelineTasks secs) else some []

/-- The branching part of `_from_dict`: the new shape (a `tasks` or an
`additional_data_nodes` key is present) resolves both reference lists; the
legacy shape pops `pipelines` and flattens the resolved pipelines into the
task list.  Yields the two resolved lists and the document state after the
branch's pops. -/
def fromDictBranch (d0 : Doc C) (cfg : Config C) :
    Option (List TaskConfig × List DataNodeConfig × Doc C) :=
  if containsKey d0 _TASKS_KEY || containsKey d0 _ADDITIONAL_DATA_NODES_KEY then
    match resolveListVal cfg.taskSections ((getD d0 _TASKS_KEY).getD .null) with
    | none => none
    | some tasks =>
      match resolveListVal cfg.dataNodeSections
          ((getD (eraseKey d0 _TASKS_KEY) _ADDITIONAL_DATA_NODES_KEY).getD .null) with
      | none => none
      | some adns =>
        some (tasks, adns, eraseKey (eraseKey d0 _TASKS_KEY) _ADDITIONAL_DATA_NODES_KEY)
  else
    match resolvePipelinesVal cfg.pipelineSections
        ((getD d0 _PIPELINES_KEY).getD .null) with
    | none => none
    | some tasks => some (tasks, [], eraseKey d0 _PIPELINES_KEY)

/-- `_from_dict`.  The result pairs the constructed config with the final
state of the (mutated) input document; `none` models a raised exception. -/
def _from_dict (as_dict : Doc C) (id : String) (cfg : Config C) :
    Option (ScenarioConfig C × Doc C) :=
  match fromDictBranch (eraseKey as_dict _ID_KEY) cfg with
  | none => none
  | some (tasks, adns, d1) =>
    match mk? id (.list (tasks.map .task)) (.list (adns.map .dataNode))
        ((getD d1 _FREQUENCY_KEY).getD .null)
        ((getD (eraseKey d1 _FREQUENCY_KEY) _COMPARATOR_KEY).getD (.cmap false []))
        (eraseKey (eraseKey d1 _FREQUENCY_KEY) _COMPARATOR_KEY) with
    | none => none
    | some sc => some (sc, eraseKey (eraseKey d1 _FREQUENCY_KEY) _COMPARATOR_KEY)

/-- Modelled from the spec: `Section.properties` (the read view of the
property bag, defined outside this repository) returns the stored bag; the
spec treats template-placeholder resolution as an external collaborator out
of scope, so the view is the bag itself. -/
def propertiesView (c : ScenarioConfig C) : Doc C :=
  c._properties

/-- The incoming document after the four reserved keys have been popped by
`_update`: the keys that flow into the property bag. -/
def nonReservedKeys (as_dict : Doc C) : Doc C :=
  eraseKey (eraseKey (eraseKey (eraseKey as_dict _TASKS_KEY)
    _ADDITIONAL_DATA_NODES_KEY) _FREQUENCY_KEY) _COMPARATOR_KEY

/-- The `if field is None and default_section:` pattern of `_update`: a
popped value of `None` is replaced by the given projection of the default
section when one was supplied. -/
def noneFallback (v : Val C) (ds? : Option (ScenarioConfig C))
    (f : ScenarioConfig C → Val C) : Val C :=
  match v, ds? with
  | .null, some ds => f ds
  | v, _ => v

/-- `_update`: each structured field takes the incoming value when its key
is present, else the prior value, and a resulting `None` falls back to the
default section when one is supplied; the bag is overlaid by the remaining
keys and, with a default section, laid over that section's bag. -/
def _update (c : ScenarioConfig C) (as_dict : Doc C)
    (ds? : Option (ScenarioConfig C)) : ScenarioConfig C :=
  let t1 := noneFallback ((getD as_dict _TASKS_KEY).getD c._tasks) ds?
              (fun ds => ds._tasks)
  let a1 := noneFallback ((getD as_dict _ADDITIONAL_DATA_NODES_KEY).getD
              c._additional_data_nodes) ds? (fun ds => ds._additional_data_nodes)
  let f1 := noneFallback ((getD as_dict _FREQUENCY_KEY).getD c.frequency) ds?
              (fun ds => ds.frequency)
  let m1 := noneFallback ((getD as_dict _COMPARATOR_KEY).getD c.comparators) ds?
              (fun ds => ds.comparators)
  let props1 := updateD c._properties (nonReservedKeys as_dict)
  let props2 := match ds? with
                | some ds => updateD ds.propertiesView props1
                | none => props1
  { c with _tasks := t1
           _additional_data_nodes := a1
           frequency := f1
           comparators := m1
           _properties := props2 }

/-- `add_comparator`: `self.comparators[dn_config_id].append(comparator)`;
`none` models the `KeyError` on a plain dict missing the key, the missing
`append` on a non-list entry, or a non-mapping comparator field. -/
def add_comparator (c : ScenarioConfig C) (dn_config_id : String) (comparator : C) :
    Option (ScenarioConfig C) :=
  match c.comparators with
  | .cmap isDef es =>
    match getD es dn_config_id with
    | some (.many cs) =>
      some { c with comparators := .cmap isDef (setKey es dn_config_id (.many (cs ++ [comparator]))) }
    | some (.one _) => none
    | none =>
      if isDef then
        some { c with comparators := .cmap isDef (es ++ [(dn_config_id, .many [comparator])]) }
      else none
  | _ => none

/-- `delete_comparator`: removes the entry when present, no-op otherwise;
`none` models the `TypeError` of `k in v` on a non-mapping field. -/
def delete_comparator (c : ScenarioConfig C) (dn_config_id : String) :
    Option (ScenarioConfig C) :=
  match c.comparators with
  | .cmap isDef es => some { c with comparators := .cmap isDef (eraseKey es dn_config_id) }
  | _ => none

/-- A read of `self.comparators[key]`: a present entry yields its value, an
absent key yields a fresh empty list on a `defaultdict` and `KeyError`
(modelled as `none`) on a plain dict. -/
def readComparator (c : ScenarioConfig C) (key : String) : Option (CVal C) :=
  match c.comparators with
  | .cmap isDef es =>
    match getD es key with
    | some v => some v
    | none => if isDef then some (.many []) else none
  | _ => none

/-- `__get_all_unique_data_nodes`: the identity-deduplicated union of the
additional data nodes with every task's inputs and outputs, computed on a
well-typed state (`set(...)` over the stored lists). -/
def getAllUniqueDataNodes (c : ScenarioConfig C) : Option (Finset DataNodeConfig) := do
  let adns ← c._additional_data_nodes.asDataNodeList
  let ts ← c._tasks.asTaskList
  some (ts.foldl (fun s t => (s ∪ t.inputs.toFinset) ∪ t.outputs.toFinset) adns.toFinset)

/-- The `data_node_configs` accessor. -/
def data_node_configs (c : ScenarioConfig C) : Option (Finset DataNodeConfig) :=
  c.getAllUniqueDataNodes

/-- The `data_nodes` accessor. -/
def data_nodes (c : ScenarioConfig C) : Option (Finset DataNodeConfig) :=
  c.getAllUniqueDataNodes

end ScenarioConfig

/-- Spec-side helper: when the value is null and a default value exists,
take the default value, otherwise keep the value. -/
def specNullFallback {C : Type} (v : Val C) (dflt : Option (Val C)) : Val C :=
  match v, dflt with
  | .null, some w => w
  | v, _ => v

/-- The merge rule of the spec for one structured field of `_update`: take
the incoming value when the key is present, else the prior value; when the
value so obtained is null and a default section is supplied, take the
default section's field. -/
def specFieldRule {C : Type} (incoming : Option (Val C)) (prior : Val C)
    (dflt : Option (Val C)) : Val C :=
  specNullFallback (incoming.getD prior) dflt

/-! ### Concrete example data used by counterexamples and witnesses -/

/-- Data node `A` of the dedup-law example. -/
def dnA : DataNodeConfig := ⟨"A"⟩

/-- Data node `B` of the dedup-law example. -/
def dnB : DataNodeConfig := ⟨"B"⟩

/-- Data node `C` of the dedup-law example. -/
def dnC : DataNodeConfig := ⟨"C"⟩

/-- A task with no inputs and output `A`. -/
def taskT1 : TaskConfig := ⟨"t1", [], [dnA]⟩

/-- A task with input `A` and output `B`. -/
def taskT2 : TaskConfig := ⟨"t2", [dnA], [dnB]⟩

/-- A pipeline grouping `t1` and `t2`, for the legacy-migration examples. -/
def pipeP1 : PipelineConfig := ⟨"p1", [taskT1, taskT2]⟩

/-- A small registry holding `t1`, `t2`, the data node `C` and the pipeline
`p1`. -/
def cfgEx : Config Nat :=
  ⟨[("t1", taskT1), ("t2", taskT2)], [("C", dnC)], [("p1", pipeP1)]⟩

/-- A freshly constructed scenario config with no tasks, data nodes,
frequency, comparators or properties. -/
def emptyScenario : Option (ScenarioConfig Nat) :=
  ScenarioConfig.mk? "s" .null .null .null .null []

/-- A freshly constructed scenario config holding the single task `t1`. -/
def oneTaskScenario : Option (ScenarioConfig Nat) :=
  ScenarioConfig.mk? "s" (.task taskT1) .null .null .null []

/-- The state produced by `mk? "s" (task t1) (dataNode C) null null []`:
both singular arguments wrapped into one-element lists. -/
def c8Scenario : ScenarioConfig Nat :=
  { id := "s", _tasks := .list [.task taskT1],
    _additional_data_nodes := .list [.dataNode dnC],
    frequency := .null, comparators := .cmap true [], _properties := [] }

/-- The state produced by constructing with the comparator mapping
`{dn1: f}` (a single handle, normalized into a one-element list). -/
def c7Scenario : ScenarioConfig Nat :=
  { id := "s", _tasks := .list [], _additional_data_nodes := .list [],
    frequency := .null, comparators := .cmap true [("dn1", .many [7])],
    _properties := [] }

/-- A config with tasks `t1`, `t2` and additional data node `C`, for the
dedup-law example. -/
def dedupScenario : ScenarioConfig Nat :=
  { id := "s", _tasks := .list [.task taskT1, .task taskT2],
    _additional_data_nodes := .list [.dataNode dnC],
    frequency := .null, comparators := .cmap true [], _properties := [] }

/-- A config with a two-entry property bag, for the bag-merge example. -/
def c3Scenario : ScenarioConfig Nat :=
  { id := "s", _tasks := .list [], _additional_data_nodes := .list [],
    frequency := .null, comparators := .cmap true [],
    _properties := [("x", .nat 1), ("y", .nat 2)] }

/-- A default section whose bag overlaps the bag of `c3Scenario` on `y`. -/
def c3Default : ScenarioConfig Nat :=
  { id := "default", _tasks := .list [], _additional_data_nodes := .list [],
    frequency := .freq .weekly, comparators := .cmap true [],
    _properties := [("y", .nat 9), ("z", .nat 3)] }

/-- An incoming document overlapping both bags on `x` and carrying a
reserved key. -/
def c3Doc : Doc Nat :=
  [("x", .nat 7), ("tasks", .null), ("w", .nat 4)]

/-- A legacy-shape document carrying all reserved keys plus one extra
property key. -/
def c10Doc : Doc Nat :=
  [("id", .str "s"), ("pipelines", .list []), ("frequency", .null),
   ("comparators", .cmap false []), ("extra", .nat 5)]

/-- A legacy-shape document listing one resolvable and one unknown
pipeline id. -/
def c4Doc : Doc Nat := [("pipelines", .list [.str "p1", .str "nope"])]

/-- The config `_from_dict c4Doc "s" cfgEx` produces: the tasks of `p1`
flattened in order, no additional data nodes. -/
def c4Result : ScenarioConfig Nat :=
  { id := "s", _tasks := .list [.task taskT1, .task taskT2],
    _additional_data_nodes := .list [], frequency := .null,
    comparators := .cmap true [], _properties := [] }

/-- A new-shape document listing one resolvable and one unknown id in each
reference list. -/
def c5NewDoc : Doc Nat :=
  [("tasks", .list [.str "t1", .str "zz"]),
   ("additional_data_nodes", .list [.str "C", .str "qq"])]

/-- A legacy-shape document listing one resolvable and one unknown
pipeline id, used for the leniency example. -/
def c5LegacyDoc : Doc Nat := [("pipelines", .list [.str "p1", .str "nope"])]

/-- What remains of `c10Doc` after `_from_dict` has popped the reserved
keys. -/
def c10Rest : Doc Nat := [("extra", .nat 5)]

/-- The config `_from_dict c10Doc "s" cfgEx` produces. -/
def c10Result : ScenarioConfig Nat :=
  { id := "s", _tasks := .list [], _additional_data_nodes := .list [],
    frequency := .null, comparators := .cmap true [],
    _properties := c10Rest }

/-! ### Lemmas about the dictionary operations -/

section DictLemmas

variable {α : Type}

theorem getD_nil (k : String) : getD ([] : List (String × α)) k = none := rfl

theorem getD_cons (p : String × α) (d : List (String × α)) (k : String) :
    getD (p :: d) k = if p.1 == k then some p.2 else getD d k := by
  simp only [getD, List.find?_cons]
  cases h : (p.1 == k) <;> simp [h]

theorem containsKey_nil (k : String) : containsKey ([] : List (String × α)) k = false := rfl

theorem containsKey_cons (p : String × α) (d : List (String × α)) (k : String) :
    containsKey (p :: d) k = ((p.1 == k) || containsKey d k) := by
  simp only [containsKey, getD_cons]
  cases h : (p.1 == k) <;> simp [h]

theorem map_or {β : Type} (x y : Option α) (f : α → β) :
    (x.or y).map f = (x.map f).or (y.map f) := by
  cases x <;> rfl

theorem some_or (a : α) (o : Option α) : (some a).or o = some a := rfl

theorem getD_append (d1 d2 : List (String × α)) (k : String) :
    getD (d1 ++ d2) k = (getD d1 k).or (getD d2 k) := by
  simp only [getD, List.find?_append, map_or]

theorem getD_eq_none (d : List (String × α)) (k : String) :
    getD d k = none ↔ ∀ p ∈ d, p.1 ≠ k := by
  induction d with
  | nil => simp [getD_nil]
  | cons p d ih =>
    rw [getD_cons]
    cases h : (p.1 == k) <;> simp_all

theorem containsKey_iff_getD (d : List (String × α)) (k : String) :
    containsKey d k = true ↔ ∃ v, getD d k = some v := by
  simp [containsKey, Option.isSome_iff_exists]

theorem getD_eraseKey (d : List (String × α)) (k' k : String) :
    getD (eraseKey d k') k = if k = k' then none else getD d k := by
  induction d with
  | nil => simp [eraseKey, getD_nil]
  | cons p d ih =>
    by_cases hp : p.1 = k'
    · rw [show eraseKey (p :: d) k' = eraseKey d k' by
        simp [eraseKey, List.filter_cons, hp]]
      rw [ih, getD_cons]
      by_cases hk : k = k'
      · simp [hk]
      · have hpk : (p.1 == k) = false := by
          simp only [beq_eq_false_iff_ne, ne_eq, hp]
          exact fun h => hk h.symm
        simp [hk, hpk]
    · rw [show eraseKey (p :: d) k' = p :: eraseKey d k' by
        simp [eraseKey, List.filter_cons, hp]]
      rw [getD_cons, getD_cons, ih]
      by_cases hk : k = k'
      · have hpk : (p.1 == k) = false := by
          simp only [beq_eq_false_iff_ne, ne_eq, hk]
          exact hp
        simp [hk, hpk, hp]
      · by_cases hpk : p.1 = k <;> simp [hpk, hk]

theorem containsKey_eraseKey (d : List (String × α)) (k' k : String) :
    containsKey (eraseKey d k') k = if k = k' then false else containsKey d k := by
  simp only [containsKey, getD_eraseKey]
  by_cases hk : k = k' <;> simp [hk]

theorem containsKey_eraseKey_self (d : List (String × α)) (k : String) :
    containsKey (eraseKey d k) k = false := by
  rw [containsKey_eraseKey, if_pos rfl]

theorem containsKey_eraseKey_ne (d : List (String × α)) (k k' : String)
    (h : k ≠ k') : containsKey (eraseKey d k') k = containsKey d k := by
  rw [containsKey_eraseKey, if_neg h]

theorem eraseKey_of_not_contains (d : List (String × α)) (k : String)
    (h : containsKey d k = false) : eraseKey d k = d := by
  rw [eraseKey, List.filter_eq_self]
  intro p hp
  have := (getD_eq_none d k).mp (by simpa [containsKey] using h) p hp
  simpa using this

theorem eraseKey_append (d1 d2 : List (String × α)) (k : String) :
    eraseKey (d1 ++ d2) k = eraseKey d1 k ++ eraseKey d2 k :=
  List.filter_append d1 d2

theorem not_containsKey_getD (d : List (String × α)) (k : String)
    (h : containsKey d k = false) : getD d k = none := by
  cases hg : getD d k with
  | none => rfl
  | some v => rw [containsKey, hg] at h; simp at h

theorem getD_replaceMap_ne (d : List (String × α)) (k' k : String) (v : α)
    (hk : k ≠ k') :
    getD (d.map fun p => if p.1 == k' then (k', v) else p) k = getD d k := by
  induction d with
  | nil => simp [getD_nil]
  | cons q d ih =>
    by_cases hq : q.1 = k'
    · rw [List.map_cons, if_pos (by simpa using hq), getD_cons, getD_cons, ih]
      have h1 : (k' == k) = false := by
        simp only [beq_eq_false_iff_ne, ne_eq]
        exact fun h => hk h.symm
      have h2 : (q.1 == k) = false := by
        simp only [beq_eq_false_iff_ne, ne_eq, hq]
        exact fun h => hk h.symm
      simp [h1, h2]
    · rw [List.map_cons, if_neg (by simpa using hq), getD_cons, getD_cons, ih]

theorem getD_replaceMap_self (d : List (String × α)) (k' : String) (v : α)
    (hc : containsKey d k' = true) :
    getD (d.map fun p => if p.1 == k' then (k', v) else p) k' = some v := by
  induction d with
  | nil => rw [containsKey_nil] at hc; simp at hc
  | cons q d ih =>
    by_cases hq : q.1 = k'
    · rw [List.map_cons, if_pos (by simpa using hq), getD_cons]
      simp
    · rw [List.map_cons, if_neg (by simpa using hq), getD_cons]
      rw [containsKey_cons] at hc
      have hc' : containsKey d k' = true := by
        rcases Bool.or_eq_true_iff.mp hc with h | h
        · exact absurd (by simpa using h) hq
        · exact h
      have hqk : (q.1 == k') = false := by simpa using hq
      simp only [hqk, Bool.false_eq_true, if_false]
      exact ih hc'

theorem getD_setKey (d : List (String × α)) (k' k : String) (v : α) :
    getD (setKey d k' v) k = if k = k' then some v else getD d k := by
  by_cases hc : containsKey d k'
  · rw [setKey, if_pos hc]
    by_cases hk : k = k'
    · subst hk
      rw [if_pos rfl]
      exact getD_replaceMap_self d k v hc
    · rw [if_neg hk]
      exact getD_replaceMap_ne d k' k v hk
  · rw [setKey, if_neg hc, getD_append]
    by_cases hk : k = k'
    · subst hk
      have h1 : getD d k = none := not_containsKey_getD d k (by simpa using hc)
      rw [h1, Option.none_or, if_pos rfl, getD_cons]
      simp
    · rw [if_neg hk]
      have h2 : getD [(k', v)] k = none := by
        rw [getD_cons]
        have : (k' == k) = false := by
          simp only [beq_eq_false_iff_ne, ne_eq]
          exact fun h => hk h.symm
        simp [this, getD_nil]
      rw [h2, Option.or_none]

theorem containsKey_setKey (d : List (String × α)) (k' k : String) (v : α) :
    containsKey (setKey d k' v) k = if k = k' then true else containsKey d k := by
  simp only [containsKey, getD_setKey]
  by_cases hk : k = k' <;> simp [hk]

theorem containsKey_iff_mem_keys (d : List (String × α)) (k : String) :
    containsKey d k = true ↔ k ∈ d.map Prod.fst := by
  induction d with
  | nil => simp [containsKey_nil]
  | cons p d ih =>
    rw [containsKey_cons]
    by_cases hp : p.1 = k
    · simp [hp]
    · have hb : (p.1 == k) = false := by simpa using hp
      simp only [hb, Bool.false_or, ih, List.map_cons, List.mem_cons]
      constructor
      · exact Or.inr
      · rintro (h | h)
        · exact absurd h.symm hp
        · exact h

theorem keys_setKey_of_contains (d : List (String × α)) (k : String) (v : α)
    (hc : containsKey d k = true) :
    (setKey d k v).map Prod.fst = d.map Prod.fst := by
  rw [setKey, if_pos hc, List.map_map]
  refine List.map_congr_left ?_
  intro p _
  by_cases hp : p.1 = k
  · simp [Function.comp, hp]
  · simp [Function.comp, show (p.1 == k) = false by simpa using hp]

theorem keysNodup_setKey (d : List (String × α)) (k : String) (v : α)
    (h : (d.map Prod.fst).Nodup) : ((setKey d k v).map Prod.fst).Nodup := by
  by_cases hc : containsKey d k
  · rw [keys_setKey_of_contains d k v hc]
    exact h
  · rw [setKey, if_neg hc, List.map_append]
    refine List.Nodup.append h (List.nodup_singleton k) ?_
    intro a ha hb
    simp only [List.map_cons, List.map_nil, List.mem_singleton] at hb
    subst hb
    exact hc ((containsKey_iff_mem_keys d a).mpr ha)

theorem keysNodup_updateD (d1 d2 : List (String × α))
    (h : (d1.map Prod.fst).Nodup) : ((updateD d1 d2).map Prod.fst).Nodup := by
  induction d2 generalizing d1 with
  | nil => exact h
  | cons p d2 ih =>
    rw [updateD, List.foldl_cons]
    exact ih (setKey d1 p.1 p.2) (keysNodup_setKey d1 p.1 p.2 h)

theorem keysNodup_eraseKey (d : List (String × α)) (k : String)
    (h : (d.map Prod.fst).Nodup) : ((eraseKey d k).map Prod.fst).Nodup :=
  ((List.filter_sublist d).map Prod.fst).nodup h

theorem getD_updateD (d1 d2 : List (String × α)) (k : String)
    (h : (d2.map Prod.fst).Nodup) :
    getD (updateD d1 d2) k = (getD d2 k).or (getD d1 k) := by
  induction d2 generalizing d1 with
  | nil => simp [updateD, getD_nil, Option.none_or]
  | cons p d2 ih =>
    rw [updateD, List.foldl_cons,
        show List.foldl (fun acc q => setKey acc q.1 q.2) (setKey d1 p.1 p.2) d2
          = updateD (setKey d1 p.1 p.2) d2 from rfl,
        ih _ (by simpa using h.of_cons), getD_setKey, getD_cons]
    by_cases hk : k = p.1
    · subst hk
      have htail : getD d2 p.1 = none := by
        rw [getD_eq_none]
        intro q hq hqk
        rw [List.map_cons, List.nodup_cons] at h
        apply h.1
        rw [← hqk]
        exact List.mem_map_of_mem Prod.fst hq
      simp [htail, some_or, Option.none_or]
    · have : (p.1 == k) = false := by
        simp only [beq_eq_false_iff_ne, ne_eq]
        exact fun h0 => hk h0.symm
      simp [hk, this]

theorem containsKey_updateD (d1 d2 : List (String × α)) (k : String) :
    containsKey (updateD d1 d2) k = (containsKey d1 k || containsKey d2 k) := by
  induction d2 generalizing d1 with
  | nil => simp [updateD, containsKey_nil]
  | cons p d2 ih =>
    rw [updateD, List.foldl_cons,
        show List.foldl (fun acc q => setKey acc q.1 q.2) (setKey d1 p.1 p.2) d2
          = updateD (setKey d1 p.1 p.2) d2 from rfl,
        ih, containsKey_setKey, containsKey_cons]
    by_cases hk : k = p.1
    · simp [hk]
    · have : (p.1 == k) = false := by
        simp only [beq_eq_false_iff_ne, ne_eq]
        exact fun h0 => hk h0.symm
      simp [hk, this]

theorem setKey_append_self (d : List (String × α)) (k : String) (m v : α)
    (h : ∀ p ∈ d, p.1 ≠ k) : setKey (d ++ [(k, m)]) k v = d ++ [(k, v)] := by
  have hc : containsKey (d ++ [(k, m)]) k = true := by
    rw [containsKey, getD_append, getD_cons]
    simp
  rw [setKey, if_pos hc, List.map_append]
  congr 1
  · conv_rhs => rw [← List.map_id d]
    refine List.map_congr_left ?_
    intro p hp
    simp [show (p.1 == k) = false by simpa using h p hp]
  · simp

theorem eraseKey_append_self (d : List (String × α)) (k : String) (m : α)
    (h : ∀ p ∈ d, p.1 ≠ k) : eraseKey (d ++ [(k, m)]) k = d := by
  rw [eraseKey_append]
  have h1 : eraseKey d k = d := by
    rw [eraseKey, List.filter_eq_self]
    intro p hp
    simpa using h p hp
  have h2 : eraseKey [(k, m)] k = [] := by
    simp [eraseKey, List.filter_cons]
  rw [h1, h2, List.append_nil]

end DictLemmas

/-! ### Lemmas about resolution, normalization and construction -/

namespace ScenarioConfig

variable {C : Type}

theorem normTasksArg_null : normTasksArg (.null : Val C) = .list [] := rfl

theorem normTasksArg_task (t : TaskConfig) :
    normTasksArg (.task t : Val C) = .list [.task t] := rfl

theorem normTasksArg_list (xs : List (Val C)) :
    normTasksArg (.list xs) = .list xs := by
  cases xs <;> rfl

theorem normAdnArg_null : normAdnArg (.null : Val C) = .list [] := rfl

theorem normAdnArg_dataNode (d : DataNodeConfig) :
    normAdnArg (.dataNode d : Val C) = .list [.dataNode d] := rfl

theorem normAdnArg_list (xs : List (Val C)) :
    normAdnArg (.list xs) = .list xs := by
  cases xs <;> rfl

theorem resolveStep_found {α : Type} (secs : List (String × α)) (acc : List α)
    (v : Val C) (x : α) (hv : v.hashable = true)
    (hl : lookupSection secs v = some x) :
    resolveStep secs acc v = some (acc ++ [x]) := by
  rw [resolveStep, if_pos hv, hl]

theorem resolveStep_miss {α : Type} (secs : List (String × α)) (acc : List α)
    (v : Val C) (hv : v.hashable = true)
    (hl : lookupSection secs v = none) :
    resolveStep secs acc v = some acc := by
  rw [resolveStep, if_pos hv, hl]

theorem pipeStep_found (secs : List (String × PipelineConfig))
    (acc : List TaskConfig) (v : Val C) (p : PipelineConfig)
    (hv : v.hashable = true) (hl : lookupSection secs v = some p) :
    pipeStep secs acc v = some (acc ++ p.tasks) := by
  rw [pipeStep, if_pos hv, hl]

theorem pipeStep_miss (secs : List (String × PipelineConfig))
    (acc : List TaskConfig) (v : Val C) (hv : v.hashable = true)
    (hl : lookupSection secs v = none) :
    pipeStep secs acc v = some acc := by
  rw [pipeStep, if_pos hv, hl]

theorem resolveRefs_eq {α : Type} (secs : List (String × α)) (ids : List (Val C))
    (h : ∀ v ∈ ids, v.hashable = true) :
    resolveRefs secs ids = some (ids.filterMap (lookupSection secs)) := by
  suffices aux : ∀ (ids : List (Val C)), (∀ v ∈ ids, v.hashable = true) →
      ∀ acc : List α, List.foldlM (resolveStep secs) acc ids
        = some (acc ++ ids.filterMap (lookupSection secs)) by
    simpa [resolveRefs] using aux ids h []
  intro ids h
  induction ids with
  | nil => intro acc; simp
  | cons v ids ih =>
    intro acc
    have hv := h v (List.mem_cons_self v ids)
    have htail := ih (fun w hw => h w (List.mem_cons_of_mem v hw))
    rw [List.foldlM_cons]
    cases hl : lookupSection secs v with
    | some x =>
      rw [resolveStep_found secs acc v x hv hl]
      have h2 : List.filterMap (lookupSection secs) (v :: ids)
          = x :: List.filterMap (lookupSection secs) ids := by
        rw [List.filterMap_cons, hl]
      rw [h2]
      conv_rhs => rw [List.append_cons]
      exact htail (acc ++ [x])
    | none =>
      rw [resolveStep_miss secs acc v hv hl]
      have h2 : List.filterMap (lookupSection secs) (v :: ids)
          = List.filterMap (lookupSection secs) ids := by
        rw [List.filterMap_cons, hl]
      rw [h2]
      exact htail acc

theorem resolvePipelineTasks_eq (secs : List (String × PipelineConfig))
    (ids : List (Val C)) (h : ∀ v ∈ ids, v.hashable = true) :
    resolvePipelineTasks secs ids
      = some ((ids.filterMap (lookupSection secs)).flatMap PipelineConfig.tasks) := by
  suffices aux : ∀ (ids : List (Val C)), (∀ v ∈ ids, v.hashable = true) →
      ∀ acc : List TaskConfig, List.foldlM (pipeStep secs) acc ids
        = some (acc ++ (ids.filterMap (lookupSection secs)).flatMap PipelineConfig.tasks) by
    simpa [resolvePipelineTasks] using aux ids h []
  intro ids h
  induction ids with
  | nil => intro acc; simp
  | cons v ids ih =>
    intro acc
    have hv := h v (List.mem_cons_self v ids)
    have htail := ih (fun w hw => h w (List.mem_cons_of_mem v hw))
    rw [List.foldlM_cons]
    cases hl : lookupSection secs v with
    | some p =>
      rw [pipeStep_found secs acc v p hv hl]
      have h2 : List.filterMap (lookupSection secs) (v :: ids)
          = p :: List.filterMap (lookupSection secs) ids := by
        rw [List.filterMap_cons, hl]
      rw [h2, List.flatMap_cons, ← List.append_assoc]
      exact htail (acc ++ p.tasks)
    | none =>
      rw [pipeStep_miss secs acc v hv hl]
      have h2 : List.filterMap (lookupSection secs) (v :: ids)
          = List.filterMap (lookupSection secs) ids := by
        rw [List.filterMap_cons, hl]
      rw [h2]
      exact htail acc

theorem compStep_absent_many (acc : List (String × CVal C)) (k : String)
    (vs : List C) (hk : isValidId k = true) (hacc : getD acc k = none) :
    compStep acc (k, .many vs) = some (acc ++ [(k, .many vs)]) := by
  simp [compStep, validateId, hk, hacc]

theorem normComparators_eq_self (es : List (String × CVal C))
    (h1 : (es.map Prod.fst).Nodup)
    (h2 : ∀ kv ∈ es, isValidId kv.1 = true)
    (h3 : ∀ kv ∈ es, ∃ cs, kv.2 = CVal.many cs) :
    normComparators es = some es := by
  suffices aux : ∀ (es : List (String × CVal C)),
      (es.map Prod.fst).Nodup → (∀ kv ∈ es, isValidId kv.1 = true) →
      (∀ kv ∈ es, ∃ cs, kv.2 = CVal.many cs) →
      ∀ acc : List (String × CVal C), (∀ p ∈ acc, ∀ q ∈ es, p.1 ≠ q.1) →
        List.foldlM compStep acc es = some (acc ++ es) by
    simpa [normComparators] using aux es h1 h2 h3 [] (by intro p hp; simp at hp)
  intro es
  induction es with
  | nil => intro _ _ _ acc _; simp
  | cons kv es ih =>
    intro h1 h2 h3 acc hdisj
    obtain ⟨k, v⟩ := kv
    obtain ⟨cs, hcs⟩ := h3 (k, v) (List.mem_cons_self _ _)
    simp only at hcs
    subst hcs
    have hacc : getD acc k = none := by
      rw [getD_eq_none]
      intro p hp
      exact hdisj p hp (k, .many cs) (List.mem_cons_self _ _)
    rw [List.foldlM_cons,
        compStep_absent_many acc k cs (h2 (k, .many cs) (List.mem_cons_self _ _)) hacc]
    have hdisj' : ∀ p ∈ acc ++ [(k, CVal.many cs)], ∀ q ∈ es, p.1 ≠ q.1 := by
      intro p hp q hq
      rcases List.mem_append.mp hp with hp | hp
      · exact hdisj p hp q (List.mem_cons_of_mem _ hq)
      · simp only [List.mem_singleton] at hp
        subst hp
        rw [List.map_cons, List.nodup_cons] at h1
        intro hkq
        exact h1.1 (hkq ▸ List.mem_map_of_mem Prod.fst hq)
    have htail := ih (by simpa using h1.of_cons)
      (fun q hq => h2 q (List.mem_cons_of_mem _ hq))
      (fun q hq => h3 q (List.mem_cons_of_mem _ hq))
      (acc ++ [(k, CVal.many cs)]) hdisj'
    conv_rhs => rw [List.append_cons]
    exact htail

theorem mem_setKey_valid (acc : List (String × CVal C)) (k : String)
    (w : CVal C) (hacc : ∀ p ∈ acc, isValidId p.1 = true)
    (hk : isValidId k = true) :
    ∀ p ∈ setKey acc k w, isValidId p.1 = true := by
  intro p hp
  rw [setKey] at hp
  by_cases hc : containsKey acc k
  · rw [if_pos hc] at hp
    rcases List.mem_map.mp hp with ⟨q, hq, hqp⟩
    by_cases hqk : q.1 = k
    · rw [if_pos (by simpa using hqk)] at hqp
      rw [← hqp]
      exact hk
    · rw [if_neg (by simpa using hqk)] at hqp
      rw [← hqp]
      exact hacc q hq
  · rw [if_neg hc] at hp
    rcases List.mem_append.mp hp with hp | hp
    · exact hacc p hp
    · simp only [List.mem_singleton] at hp
      rw [hp]
      exact hk

theorem compStep_preserves_valid (acc acc' : List (String × CVal C))
    (kv : String × CVal C) (h : compStep acc kv = some acc')
    (hacc : ∀ p ∈ acc, isValidId p.1 = true) :
    ∀ p ∈ acc', isValidId p.1 = true := by
  rw [compStep] at h
  cases hv : validateId kv.1 with
  | none => rw [hv] at h; simp at h
  | some k =>
    have hkval : isValidId k = true := by
      rw [validateId] at hv
      by_cases hiv : isValidId kv.1
      · rw [if_pos hiv] at hv
        rw [← Option.some.inj hv]
        exact hiv
      · rw [if_neg hiv] at hv
        cases hv
    rw [hv] at h
    have h' : (match getD acc k, kv.2 with
      | some (.many cs), .many vs => some (setKey acc k (.many (cs ++ vs)))
      | some (.many cs), .one v => some (setKey acc k (.many (cs ++ [v])))
      | some (.one _), _ => none
      | none, .many vs => some (acc ++ [(k, .many vs)])
      | none, .one v => some (acc ++ [(k, .many [v])])) = some acc' := h
    have happend : ∀ w : CVal C, acc' = acc ++ [(k, w)] →
        ∀ p ∈ acc', isValidId p.1 = true := by
      intro w hw p hp
      rw [hw] at hp
      rcases List.mem_append.mp hp with hp | hp
      · exact hacc p hp
      · simp only [List.mem_singleton] at hp
        rw [hp]
        exact hkval
    cases hg : getD acc k with
    | some cv =>
      cases cv with
      | many cs =>
        cases hkv2 : kv.2 with
        | many vs =>
          rw [hg, hkv2] at h'
          rw [← Option.some.inj h']
          exact mem_setKey_valid acc k _ hacc hkval
        | one v =>
          rw [hg, hkv2] at h'
          rw [← Option.some.inj h']
          exact mem_setKey_valid acc k _ hacc hkval
      | one c =>
        rw [hg] at h'
        cases hkv2 : kv.2 <;> rw [hkv2] at h' <;> cases h'
    | none =>
      cases hkv2 : kv.2 with
      | many vs =>
        rw [hg, hkv2] at h'
        exact happend (.many vs) (Option.some.inj h').symm
      | one v =>
        rw [hg, hkv2] at h'
        exact happend (.many [v]) (Option.some.inj h').symm

theorem normComparators_valid (es out : List (String × CVal C))
    (h : normComparators es = some out) :
    ∀ kv ∈ out, isValidId kv.1 = true := by
  suffices aux : ∀ (es acc : List (String × CVal C)),
      (∀ p ∈ acc, isValidId p.1 = true) →
      List.foldlM compStep acc es = some out →
      ∀ kv ∈ out, isValidId kv.1 = true by
    refine aux es [] (by intro p hp; simp at hp) ?_
    simpa [normComparators] using h
  intro es
  induction es with
  | nil =>
    intro acc hacc h
    simp only [List.foldlM_nil] at h
    cases h
    exact hacc
  | cons kv es ih =>
    intro acc hacc h
    rw [List.foldlM_cons] at h
    cases hstep : compStep acc kv with
    | none => rw [hstep] at h; simp at h
    | some acc' =>
      rw [hstep] at h
      have h' : List.foldlM compStep acc' es = some out := h
      exact ih acc' (compStep_preserves_valid acc acc' kv hstep hacc) h'

theorem initComparators_valid (cm : Val C) (ce : List (String × CVal C))
    (h : initComparators cm = some ce) : ∀ kv ∈ ce, isValidId kv.1 = true := by
  have hempty : ce = [] → ∀ kv ∈ ce, isValidId kv.1 = true := by
    intro hce kv hkv
    rw [hce] at hkv
    simp at hkv
  cases cm with
  | cmap isDef es0 =>
    rw [show initComparators (Val.cmap isDef es0)
        = if es0.isEmpty then some [] else normComparators es0 from rfl] at h
    by_cases he : es0.isEmpty
    · rw [if_pos he] at h
      exact hempty (Option.some.inj h).symm
    · rw [if_neg he] at h
      exact normComparators_valid es0 ce h
  | null =>
    exact hempty (Option.some.inj h).symm
  | str s =>
    rw [show initComparators (Val.str s : Val C)
        = if s.isEmpty then some [] else none from rfl] at h
    by_cases he : s.isEmpty
    · rw [if_pos he] at h
      exact hempty (Option.some.inj h).symm
    · rw [if_neg he] at h
      cases h
  | nat n =>
    rw [show initComparators (Val.nat n : Val C)
        = if n == 0 then some [] else none from rfl] at h
    by_cases hn : (n == 0) = true
    · rw [if_pos hn] at h
      exact hempty (Option.some.inj h).symm
    · rw [if_neg hn] at h
      cases h
  | freq f0 => cases h
  | task t0 => cases h
  | dataNode d0 => cases h
  | list xs =>
    rw [show initComparators (Val.list xs : Val C)
        = if xs.isEmpty then some [] else none from rfl] at h
    by_cases he : xs.isEmpty
    · rw [if_pos he] at h
      exact hempty (Option.some.inj h).symm
    · rw [if_neg he] at h
      cases h

theorem mk?_inv {id : String} {t a f cm : Val C} {p : Doc C}
    {c : ScenarioConfig C} (h : mk? id t a f cm p = some c) :
    isValidId id = true ∧ c.id = id ∧ c._tasks = normTasksArg t ∧
    c._additional_data_nodes = normAdnArg a ∧ c.frequency = f ∧
    c._properties = p ∧ ∃ es, c.comparators = .cmap true es := by
  rw [mk?] at h
  cases hce : initComparators cm with
  | none => rw [hce] at h; cases h
  | some ce =>
    rw [hce] at h
    have h' : (Option.bind (validateId id) fun vid =>
        some { id := vid, _tasks := normTasksArg t,
               _additional_data_nodes := normAdnArg a, frequency := f,
               comparators := .cmap true ce, _properties := p }) = some c := h
    cases hv : validateId id with
    | none => rw [hv] at h'; cases h'
    | some vid =>
      rw [hv] at h'
      have hvid : isValidId id = true ∧ vid = id := by
        rw [validateId] at hv
        by_cases hiv : isValidId id
        · rw [if_pos hiv] at hv
          exact ⟨hiv, (Option.some.inj hv).symm⟩
        · rw [if_neg hiv] at hv
          cases hv
      have hc := (Option.some.inj h').symm
      subst hc
      exact ⟨hvid.1, hvid.2, rfl, rfl, rfl, rfl, ce, rfl⟩

theorem mk?_comparators_valid {id : String} {t a f cm : Val C} {p : Doc C}
    {c : ScenarioConfig C} (h : mk? id t a f cm p = some c) :
    ∃ es, c.comparators = .cmap true es ∧ ∀ kv ∈ es, isValidId kv.1 = true := by
  rw [mk?] at h
  cases hce : initComparators cm with
  | none => rw [hce] at h; cases h
  | some ce =>
    rw [hce] at h
    have h' : (Option.bind (validateId id) fun vid =>
        some { id := vid, _tasks := normTasksArg t,
               _additional_data_nodes := normAdnArg a, frequency := f,
               comparators := .cmap true ce, _properties := p }) = some c := h
    cases hv : validateId id with
    | none => rw [hv] at h'; cases h'
    | some vid =>
      rw [hv] at h'
      have hc := (Option.some.inj h').symm
      subst hc
      exact ⟨ce, rfl, initComparators_valid cm ce hce⟩

theorem add_comparator_cmap (c : ScenarioConfig C) (isDef : Bool)
    (es : List (String × CVal C)) (k : String) (f : C)
    (h : c.comparators = .cmap isDef es) :
    c.add_comparator k f
      = match getD es k with
        | some (.many cs) =>
          some { c with comparators := .cmap isDef (setKey es k (.many (cs ++ [f]))) }
        | some (.one _) => none
        | none =>
          if isDef then
            some { c with comparators := .cmap isDef (es ++ [(k, .many [f])]) }
          else none := by
  rw [add_comparator, h]

theorem delete_comparator_cmap (c : ScenarioConfig C) (isDef : Bool)
    (es : List (String × CVal C)) (k : String)
    (h : c.comparators = .cmap isDef es) :
    c.delete_comparator k
      = some { c with comparators := .cmap isDef (eraseKey es k) } := by
  rw [delete_comparator, h]

theorem readComparator_cmap (c : ScenarioConfig C) (isDef : Bool)
    (es : List (String × CVal C)) (k : String)
    (h : c.comparators = .cmap isDef es) :
    c.readComparator k
      = match getD es k with
        | some v => some v
        | none => if isDef then some (.many []) else none := by
  rw [readComparator, h]

theorem noneFallback_eq_spec (incoming : Option (Val C)) (prior : Val C)
    (ds? : Option (ScenarioConfig C)) (f : ScenarioConfig C → Val C) :
    noneFallback (incoming.getD prior) ds? f
      = specFieldRule incoming prior (ds?.map f) := by
  rw [specFieldRule]
  cases h : incoming.getD prior <;> cases ds? <;> rfl

theorem lookupSection_str {α : Type} (secs : List (String × α)) (s : String) :
    lookupSection secs (.str s : Val C) = getD secs s := rfl

theorem filterMap_lookup_str {α : Type} (secs : List (String × α)) (ts : List String) :
    ((ts.map (Val.str : String → Val C)).filterMap (lookupSection secs))
      = ts.filterMap (getD secs) := by
  rw [List.filterMap_map]
  rfl

theorem resolveListVal_null {α : Type} (secs : List (String × α)) :
    resolveListVal secs (.null : Val C) = some [] := rfl

theorem resolveListVal_list {α : Type} (secs : List (String × α))
    (xs : List (Val C)) (h : ∀ v ∈ xs, v.hashable = true) :
    resolveListVal secs (.list xs) = some (xs.filterMap (lookupSection secs)) := by
  cases xs with
  | nil => rfl
  | cons v vs =>
    rw [resolveListVal, if_pos (by simp [Val.truthy])]
    rw [show (Val.list (v :: vs) : Val C).elementsOf = some (v :: vs) from rfl,
        Option.some_bind]
    exact resolveRefs_eq secs (v :: vs) h

theorem resolvePipelinesVal_null (secs : List (String × PipelineConfig)) :
    resolvePipelinesVal secs (.null : Val C) = some [] := rfl

theorem resolvePipelinesVal_list (secs : List (String × PipelineConfig))
    (xs : List (Val C)) (h : ∀ v ∈ xs, v.hashable = true) :
    resolvePipelinesVal secs (.list xs)
      = some ((xs.filterMap (lookupSection secs)).flatMap PipelineConfig.tasks) := by
  cases xs with
  | nil => rfl
  | cons v vs =>
    rw [resolvePipelinesVal, if_pos (by simp [Val.truthy])]
    rw [show (Val.list (v :: vs) : Val C).elementsOf = some (v :: vs) from rfl,
        Option.some_bind]
    exact resolvePipelineTasks_eq secs (v :: vs) h

theorem fromDictBranch_new {d0 : Doc C} {cfg : Config C}
    {r : List TaskConfig × List DataNodeConfig × Doc C}
    (hc : (containsKey d0 _TASKS_KEY || containsKey d0 _ADDITIONAL_DATA_NODES_KEY) = true)
    (h : fromDictBranch d0 cfg = some r) :
    ∃ tasks adns,
      resolveListVal cfg.taskSections ((getD d0 _TASKS_KEY).getD .null) = some tasks
      ∧ resolveListVal cfg.dataNodeSections
          ((getD (eraseKey d0 _TASKS_KEY) _ADDITIONAL_DATA_NODES_KEY).getD .null)
          = some adns
      ∧ r = (tasks, adns, eraseKey (eraseKey d0 _TASKS_KEY) _ADDITIONAL_DATA_NODES_KEY) := by
  rw [fromDictBranch, if_pos hc] at h
  cases h1 : resolveListVal cfg.taskSections ((getD d0 _TASKS_KEY).getD .null) with
  | none => rw [h1] at h; cases h
  | some tasks =>
    rw [h1] at h
    cases h2 : resolveListVal cfg.dataNodeSections
        ((getD (eraseKey d0 _TASKS_KEY) _ADDITIONAL_DATA_NODES_KEY).getD .null) with
    | none => rw [h2] at h; cases h
    | some adns =>
      rw [h2] at h
      exact ⟨tasks, adns, rfl, rfl, (Option.some.inj h).symm⟩

theorem fromDictBranch_new_eq {d0 : Doc C} {cfg : Config C}
    {tasks : List TaskConfig} {adns : List DataNodeConfig}
    (hc : (containsKey d0 _TASKS_KEY || containsKey d0 _ADDITIONAL_DATA_NODES_KEY) = true)
    (h1 : resolveListVal cfg.taskSections ((getD d0 _TASKS_KEY).getD .null) = some tasks)
    (h2 : resolveListVal cfg.dataNodeSections
        ((getD (eraseKey d0 _TASKS_KEY) _ADDITIONAL_DATA_NODES_KEY).getD .null)
        = some adns) :
    fromDictBranch d0 cfg
      = some (tasks, adns, eraseKey (eraseKey d0 _TASKS_KEY) _ADDITIONAL_DATA_NODES_KEY) := by
  rw [fromDictBranch, if_pos hc, h1, h2]

theorem fromDictBranch_legacy {d0 : Doc C} {cfg : Config C}
    {r : List TaskConfig × List DataNodeConfig × Doc C}
    (hc : (containsKey d0 _TASKS_KEY || containsKey d0 _ADDITIONAL_DATA_NODES_KEY) = false)
    (h : fromDictBranch d0 cfg = some r) :
    ∃ tasks,
      resolvePipelinesVal cfg.pipelineSections ((getD d0 _PIPELINES_KEY).getD .null)
        = some tasks
      ∧ r = (tasks, [], eraseKey d0 _PIPELINES_KEY) := by
  rw [fromDictBranch, if_neg (by rw [hc]; exact Bool.false_ne_true)] at h
  cases h1 : resolvePipelinesVal cfg.pipelineSections
      ((getD d0 _PIPELINES_KEY).getD .null) with
  | none => rw [h1] at h; cases h
  | some tasks =>
    rw [h1] at h
    exact ⟨tasks, rfl, (Option.some.inj h).symm⟩

theorem fromDictBranch_legacy_eq {d0 : Doc C} {cfg : Config C}
    {tasks : List TaskConfig}
    (hc : (containsKey d0 _TASKS_KEY || containsKey d0 _ADDITIONAL_DATA_NODES_KEY) = false)
    (h1 : resolvePipelinesVal cfg.pipelineSections ((getD d0 _PIPELINES_KEY).getD .null)
        = some tasks) :
    fromDictBranch d0 cfg = some (tasks, [], eraseKey d0 _PIPELINES_KEY) := by
  rw [fromDictBranch, if_neg (by rw [hc]; exact Bool.false_ne_true), h1]

theorem _from_dict_inv {as_dict : Doc C} {id : String} {cfg : Config C}
    {S : ScenarioConfig C} {d' : Doc C}
    (h : _from_dict as_dict id cfg = some (S, d')) :
    ∃ tasks adns d1,
      fromDictBranch (eraseKey as_dict _ID_KEY) cfg = some (tasks, adns, d1)
      ∧ d' = eraseKey (eraseKey d1 _FREQUENCY_KEY) _COMPARATOR_KEY
      ∧ mk? id (.list (tasks.map .task)) (.list (adns.map .dataNode))
          ((getD d1 _FREQUENCY_KEY).getD .null)
          ((getD (eraseKey d1 _FREQUENCY_KEY) _COMPARATOR_KEY).getD (.cmap false []))
          (eraseKey (eraseKey d1 _FREQUENCY_KEY) _COMPARATOR_KEY) = some S := by
  rw [_from_dict] at h
  cases hb : fromDictBranch (eraseKey as_dict _ID_KEY) cfg with
  | none => rw [hb] at h; cases h
  | some r =>
    obtain ⟨tasks, adns, d1⟩ := r
    rw [hb] at h
    have h' : (match mk? id (.list (tasks.map .task)) (.list (adns.map .dataNode))
        ((getD d1 _FREQUENCY_KEY).getD .null)
        ((getD (eraseKey d1 _FREQUENCY_KEY) _COMPARATOR_KEY).getD (.cmap false []))
        (eraseKey (eraseKey d1 _FREQUENCY_KEY) _COMPARATOR_KEY) with
      | none => (none : Option (ScenarioConfig C × Doc C))
      | some sc => some (sc, eraseKey (eraseKey d1 _FREQUENCY_KEY) _COMPARATOR_KEY))
        = some (S, d') := h
    cases hm : mk? id (.list (tasks.map .task)) (.list (adns.map .dataNode))
        ((getD d1 _FREQUENCY_KEY).getD .null)
        ((getD (eraseKey d1 _FREQUENCY_KEY) _COMPARATOR_KEY).getD (.cmap false []))
        (eraseKey (eraseKey d1 _FREQUENCY_KEY) _COMPARATOR_KEY) with
    | none => rw [hm] at h'; cases h'
    | some sc =>
      rw [hm] at h'
      have h2 := Option.some.inj h'
      have hS : sc = S := congrArg Prod.fst h2
      have hd : eraseKey (eraseKey d1 _FREQUENCY_KEY) _COMPARATOR_KEY = d' :=
        congrArg Prod.snd h2
      exact ⟨tasks, adns, d1, rfl, hd.symm, hS ▸ hm⟩

theorem _from_dict_eq {as_dict : Doc C} {id : String} {cfg : Config C}
    {tasks : List TaskConfig} {adns : List DataNodeConfig} {d1 : Doc C}
    {sc : ScenarioConfig C}
    (hb : fromDictBranch (eraseKey as_dict _ID_KEY) cfg = some (tasks, adns, d1))
    (hm : mk? id (.list (tasks.map .task)) (.list (adns.map .dataNode))
        ((getD d1 _FREQUENCY_KEY).getD .null)
        ((getD (eraseKey d1 _FREQUENCY_KEY) _COMPARATOR_KEY).getD (.cmap false []))
        (eraseKey (eraseKey d1 _FREQUENCY_KEY) _COMPARATOR_KEY) = some sc) :
    _from_dict as_dict id cfg
      = some (sc, eraseKey (eraseKey d1 _FREQUENCY_KEY) _COMPARATOR_KEY) := by
  rw [_from_dict, hb]
  have h' : (match mk? id (.list (tasks.map .task)) (.list (adns.map .dataNode))
      ((getD d1 _FREQUENCY_KEY).getD .null)
      ((getD (eraseKey d1 _FREQUENCY_KEY) _COMPARATOR_KEY).getD (.cmap false []))
      (eraseKey (eraseKey d1 _FREQUENCY_KEY) _COMPARATOR_KEY) with
    | none => (none : Option (ScenarioConfig C × Doc C))
    | some sc => some (sc, eraseKey (eraseKey d1 _FREQUENCY_KEY) _COMPARATOR_KEY))
      = some (sc, eraseKey (eraseKey d1 _FREQUENCY_KEY) _COMPARATOR_KEY) := by
    rw [hm]
  exact h'

theorem mk?_eq {id : String} {t a f cm : Val C} {p : Doc C}
    {ce : List (String × CVal C)}
    (hce : initComparators cm = some ce) (hid : isValidId id = true) :
    mk? id t a f cm p
      = some { id := id, _tasks := normTasksArg t,
               _additional_data_nodes := normAdnArg a, frequency := f,
               comparators := .cmap true ce, _properties := p } := by
  have hv : validateId id = some id := by rw [validateId, if_pos hid]
  rw [mk?, hce, hv]
  rfl

theorem mem_foldl_union (ts : List TaskConfig) (init : Finset DataNodeConfig)
    (x : DataNodeConfig) :
    (x ∈ ts.foldl (fun s t => (s ∪ t.inputs.toFinset) ∪ t.outputs.toFinset) init) ↔
      x ∈ init ∨ ∃ t ∈ ts, x ∈ t.inputs ∨ x ∈ t.outputs := by
  induction ts generalizing init with
  | nil => simp
  | cons t ts ih =>
    rw [List.foldl_cons, ih]
    simp only [Finset.mem_union, List.mem_toFinset, List.mem_cons]
    constructor
    · rintro (((h | h) | h) | ⟨u, hu, h⟩)
      · exact Or.inl h
      · exact Or.inr ⟨t, Or.inl rfl, Or.inl h⟩
      · exact Or.inr ⟨t, Or.inl rfl, Or.inr h⟩
      · exact Or.inr ⟨u, Or.inr hu, h⟩
    · rintro (h | ⟨u, (hu | hu), h⟩)
      · exact Or.inl (Or.inl (Or.inl h))
      · subst hu
        rcases h with h | h
        · exact Or.inl (Or.inl (Or.inr h))
        · exact Or.inl (Or.inr h)
      · exact Or.inr ⟨u, hu, h⟩

end ScenarioConfig

/-! ### Claim theorems -/

namespace ScenarioConfig

variable {C : Type}

/-- C2: after `_update`, each of the four structured fields (`tasks`,
`additional_data_nodes`, `frequency`, `comparators`) equals the incoming
document's value if that key is present, otherwise the field's prior value;
and if the value so obtained is null and a default section was supplied,
the default section's corresponding field (hence with a default section of
frequency Weekly, no incoming frequency key and a current frequency of
None, the frequency ends up Weekly). -/
theorem update_structured_fields_follow_merge_rule (c : ScenarioConfig C)
    (d : Doc C) (ds? : Option (ScenarioConfig C)) :
    (c._update d ds?)._tasks
      = specFieldRule (getD d _TASKS_KEY) c._tasks (ds?.map fun s => s._tasks)
    ∧ (c._update d ds?)._additional_data_nodes
      = specFieldRule (getD d _ADDITIONAL_DATA_NODES_KEY) c._additional_data_nodes
          (ds?.map fun s => s._additional_data_nodes)
    ∧ (c._update d ds?).frequency
      = specFieldRule (getD d _FREQUENCY_KEY) c.frequency
          (ds?.map fun s => s.frequency)
    ∧ (c._update d ds?).comparators
      = specFieldRule (getD d _COMPARATOR_KEY) c.comparators
          (ds?.map fun s => s.comparators) := by
  refine ⟨?_, ?_, ?_, ?_⟩
  · show noneFallback ((getD d _TASKS_KEY).getD c._tasks) ds? (fun ds => ds._tasks) = _
    exact noneFallback_eq_spec _ _ _ _
  · show noneFallback ((getD d _ADDITIONAL_DATA_NODES_KEY).getD c._additional_data_nodes)
        ds? (fun ds => ds._additional_data_nodes) = _
    exact noneFallback_eq_spec _ _ _ _
  · show noneFallback ((getD d _FREQUENCY_KEY).getD c.frequency) ds?
        (fun ds => ds.frequency) = _
    exact noneFallback_eq_spec _ _ _ _
  · show noneFallback ((getD d _COMPARATOR_KEY).getD c.comparators) ds?
        (fun ds => ds.comparators) = _
    exact noneFallback_eq_spec _ _ _ _

/-- C1 counterexample: `_to_dict` serializes the task entries as the task
config objects themselves, not as their reference identities; fed back to
`_from_dict`, an object-valued entry never resolves in the string-keyed
registry, so a config holding task `t1` (registered under "t1") round-trips
to an empty task list. -/
theorem roundtrip_loses_task_references :
    ((oneTaskScenario.bind fun S => _from_dict S._to_dict "s" cfgEx).map
        fun r => r.1._tasks.asTaskList) = some (some [])
    ∧ (oneTaskScenario.map fun S => S._tasks.asTaskList) = some (some [taskT1]) :=
  ⟨rfl, rfl⟩

/-- C1 (amended): the round trip
`_from_dict (_to_dict S) S.id cfg` preserves `tasks`,
`additional_data_nodes`, `frequency` and `comparators` when the two
reference lists are empty (and the state is constructor-normalized: the
comparator mapping is a defaultdict with validated, duplicate-free,
list-valued entries, the id is valid, and the property bag avoids the
reserved keys); by the counterexample, nonempty reference lists are lost
because they serialize as objects rather than ids. -/
theorem roundtrip_preserves_fields_on_empty_reference_lists
    (S : ScenarioConfig C) (cfg : Config C) (es : List (String × CVal C))
    (h1 : S._tasks = .list [])
    (h2 : S._additional_data_nodes = .list [])
    (h3 : S.comparators = .cmap true es)
    (h4 : (es.map Prod.fst).Nodup)
    (h5 : ∀ kv ∈ es, isValidId kv.1 = true)
    (h6 : ∀ kv ∈ es, ∃ cs, kv.2 = CVal.many cs)
    (h7 : isValidId S.id = true)
    (h8 : ∀ kv ∈ S._properties, kv.1 ≠ _TASKS_KEY
          ∧ kv.1 ≠ _ADDITIONAL_DATA_NODES_KEY
          ∧ kv.1 ≠ _FREQUENCY_KEY ∧ kv.1 ≠ _COMPARATOR_KEY)
    (h9 : (S._properties.map Prod.fst).Nodup) :
    ∃ S' d', _from_dict S._to_dict S.id cfg = some (S', d')
      ∧ S'._tasks = S._tasks
      ∧ S'._additional_data_nodes = S._additional_data_nodes
      ∧ S'.frequency = S.frequency
      ∧ S'.comparators = S.comparators := by
  have hPt : getD S._properties _TASKS_KEY = none :=
    (getD_eq_none _ _).mpr (fun p hp => (h8 p hp).1)
  have hPa : getD S._properties _ADDITIONAL_DATA_NODES_KEY = none :=
    (getD_eq_none _ _).mpr (fun p hp => (h8 p hp).2.1)
  have hPf : getD S._properties _FREQUENCY_KEY = none :=
    (getD_eq_none _ _).mpr (fun p hp => (h8 p hp).2.2.1)
  have hPc : getD S._properties _COMPARATOR_KEY = none :=
    (getD_eq_none _ _).mpr (fun p hp => (h8 p hp).2.2.2)
  have hT : getD S._to_dict _TASKS_KEY = some (Val.list []) := by
    rw [_to_dict, getD_updateD _ _ _ h9, hPt, Option.none_or,
        show getD [(_COMPARATOR_KEY, S.comparators), (_TASKS_KEY, S._tasks),
          (_ADDITIONAL_DATA_NODES_KEY, S._additional_data_nodes),
          (_FREQUENCY_KEY, S.frequency)] _TASKS_KEY = some S._tasks from rfl, h1]
  have hA : getD S._to_dict _ADDITIONAL_DATA_NODES_KEY = some (Val.list []) := by
    rw [_to_dict, getD_updateD _ _ _ h9, hPa, Option.none_or,
        show getD [(_COMPARATOR_KEY, S.comparators), (_TASKS_KEY, S._tasks),
          (_ADDITIONAL_DATA_NODES_KEY, S._additional_data_nodes),
          (_FREQUENCY_KEY, S.frequency)] _ADDITIONAL_DATA_NODES_KEY
          = some S._additional_data_nodes from rfl, h2]
  have hF : getD S._to_dict _FREQUENCY_KEY = some S.frequency := by
    rw [_to_dict, getD_updateD _ _ _ h9, hPf, Option.none_or]
    rfl
  have hC : getD S._to_dict _COMPARATOR_KEY = some (Val.cmap true es) := by
    rw [_to_dict, getD_updateD _ _ _ h9, hPc, Option.none_or,
        show getD [(_COMPARATOR_KEY, S.comparators), (_TASKS_KEY, S._tasks),
          (_ADDITIONAL_DATA_NODES_KEY, S._additional_data_nodes),
          (_FREQUENCY_KEY, S.frequency)] _COMPARATOR_KEY = some S.comparators from rfl,
        h3]
  have hgt0 : getD (eraseKey S._to_dict _ID_KEY) _TASKS_KEY = some (Val.list []) := by
    rw [getD_eraseKey, if_neg (by decide), hT]
  have hga0 : getD (eraseKey (eraseKey S._to_dict _ID_KEY) _TASKS_KEY)
      _ADDITIONAL_DATA_NODES_KEY = some (Val.list []) := by
    rw [getD_eraseKey, if_neg (by decide), getD_eraseKey, if_neg (by decide), hA]
  have hcon : (containsKey (eraseKey S._to_dict _ID_KEY) _TASKS_KEY
      || containsKey (eraseKey S._to_dict _ID_KEY) _ADDITIONAL_DATA_NODES_KEY)
      = true := by
    rw [containsKey, hgt0]
    rfl
  have hrt : resolveListVal cfg.taskSections
      ((getD (eraseKey S._to_dict _ID_KEY) _TASKS_KEY).getD .null)
      = some ([] : List TaskConfig) := by
    rw [hgt0]
    rfl
  have hra : resolveListVal cfg.dataNodeSections
      ((getD (eraseKey (eraseKey S._to_dict _ID_KEY) _TASKS_KEY)
        _ADDITIONAL_DATA_NODES_KEY).getD .null)
      = some ([] : List DataNodeConfig) := by
    rw [hga0]
    rfl
  have hb := fromDictBranch_new_eq hcon hrt hra
  have hgf : getD (eraseKey (eraseKey (eraseKey S._to_dict _ID_KEY) _TASKS_KEY)
      _ADDITIONAL_DATA_NODES_KEY) _FREQUENCY_KEY = some S.frequency := by
    rw [getD_eraseKey, if_neg (by decide), getD_eraseKey, if_neg (by decide),
        getD_eraseKey, if_neg (by decide), hF]
  have hgc : getD (eraseKey (eraseKey (eraseKey (eraseKey S._to_dict _ID_KEY)
      _TASKS_KEY) _ADDITIONAL_DATA_NODES_KEY) _FREQUENCY_KEY) _COMPARATOR_KEY
      = some (Val.cmap true es) := by
    rw [getD_eraseKey, if_neg (by decide), getD_eraseKey, if_neg (by decide),
        getD_eraseKey, if_neg (by decide), getD_eraseKey, if_neg (by decide), hC]
  have hce : initComparators ((getD (eraseKey (eraseKey (eraseKey (eraseKey
      S._to_dict _ID_KEY) _TASKS_KEY) _ADDITIONAL_DATA_NODES_KEY) _FREQUENCY_KEY)
      _COMPARATOR_KEY).getD (Val.cmap false [])) = some es := by
    rw [hgc]
    show initComparators (Val.cmap true es) = some es
    cases es with
    | nil => rfl
    | cons e es' =>
      rw [show initComparators (Val.cmap true (e :: es'))
          = normComparators (e :: es') from rfl]
      exact normComparators_eq_self _ h4 h5 h6
  refine ⟨_, _, _from_dict_eq hb (mk?_eq hce h7), ?_, ?_, ?_, ?_⟩
  · rw [h1]
    rfl
  · rw [h2]
    rfl
  · show (getD (eraseKey (eraseKey (eraseKey S._to_dict _ID_KEY) _TASKS_KEY)
        _ADDITIONAL_DATA_NODES_KEY) _FREQUENCY_KEY).getD Val.null = S.frequency
    rw [hgf]
    rfl
  · show Val.cmap true es = S.comparators
    exact h3.symm

/-- C1 (amended) witness at a concrete input: an empty-reference config
carrying a frequency-free field, a comparator entry and no properties
round-trips with all four fields preserved. -/
theorem roundtrip_preserves_fields_on_empty_reference_lists_witness :
    c7Scenario._tasks = .list []
    ∧ c7Scenario._additional_data_nodes = .list []
    ∧ c7Scenario.comparators = .cmap true [("dn1", CVal.many [7])]
    ∧ isValidId c7Scenario.id = true
    ∧ ∃ S' d', _from_dict c7Scenario._to_dict c7Scenario.id cfgEx = some (S', d')
        ∧ S'._tasks = c7Scenario._tasks
        ∧ S'._additional_data_nodes = c7Scenario._additional_data_nodes
        ∧ S'.frequency = c7Scenario.frequency
        ∧ S'.comparators = c7Scenario.comparators :=
  ⟨rfl, rfl, rfl, rfl,
   roundtrip_preserves_fields_on_empty_reference_lists c7Scenario cfgEx
     [("dn1", CVal.many [7])] rfl rfl rfl (by decide) (by decide)
     (by
       rintro kv hkv
       rcases List.mem_singleton.mp hkv with rfl
       exact ⟨[7], rfl⟩)
     rfl
     (by
       rintro kv hkv
       exact absurd hkv (List.not_mem_nil kv))
     (by decide)⟩

/-- C3: after `_update`, for every key the property bag reads as: the
incoming document's non-reserved keys first, then the prior bag, then —
when a default section is supplied — the default section's bag (incoming
over prior over default, a two-level override); with no default section,
incoming over prior. -/
theorem update_property_bag_two_level_override (c : ScenarioConfig C)
    (d : Doc C) (ds : ScenarioConfig C)
    (h1 : (d.map Prod.fst).Nodup) (h2 : (c._properties.map Prod.fst).Nodup) :
    (∀ k, getD ((c._update d (some ds))._properties) k
        = (getD (nonReservedKeys d) k).or
            ((getD c._properties k).or (getD ds._properties k)))
    ∧ (∀ k, getD ((c._update d none)._properties) k
        = (getD (nonReservedKeys d) k).or (getD c._properties k)) := by
  have hrest : ((nonReservedKeys d).map Prod.fst).Nodup :=
    keysNodup_eraseKey _ _ (keysNodup_eraseKey _ _
      (keysNodup_eraseKey _ _ (keysNodup_eraseKey _ _ h1)))
  have hp1 : ((updateD c._properties (nonReservedKeys d)).map Prod.fst).Nodup :=
    keysNodup_updateD _ _ h2
  constructor
  · intro k
    show getD (updateD ds.propertiesView (updateD c._properties (nonReservedKeys d))) k = _
    rw [getD_updateD _ _ _ hp1, getD_updateD _ _ _ hrest, Option.or_assoc]
    rfl
  · intro k
    show getD (updateD c._properties (nonReservedKeys d)) k = _
    rw [getD_updateD _ _ _ hrest]

/-- C3 witness at a concrete input. -/
theorem update_property_bag_two_level_override_witness :
    ((c3Doc.map Prod.fst).Nodup)
    ∧ ((c3Scenario._properties.map Prod.fst).Nodup)
    ∧ (∀ k, getD ((c3Scenario._update c3Doc (some c3Default))._properties) k
        = (getD (nonReservedKeys c3Doc) k).or
            ((getD c3Scenario._properties k).or (getD c3Default._properties k)))
    ∧ (∀ k, getD ((c3Scenario._update c3Doc none)._properties) k
        = (getD (nonReservedKeys c3Doc) k).or (getD c3Scenario._properties k)) :=
  ⟨by decide, by decide,
   (update_property_bag_two_level_override c3Scenario c3Doc c3Default
     (by decide) (by decide)).1,
   (update_property_bag_two_level_override c3Scenario c3Doc c3Default
     (by decide) (by decide)).2⟩

/-- C6 counterexample: on a state reached through construction followed by
`_clean` (which replaces the comparator `defaultdict` with a plain `dict`),
`add_comparator` on an absent key raises `KeyError` instead of creating the
list, and reading an absent key raises as well — contradicting the claim
for states reachable through `_clean`. -/
theorem comparator_ops_fail_after_clean :
    (emptyScenario.map fun c => (c._clean.add_comparator "dn1" 7).isNone) = some true
    ∧ (emptyScenario.map fun c => (c._clean.readComparator "dn1").isNone) = some true :=
  ⟨rfl, rfl⟩

/-- C6 (amended): on a config whose comparator mapping is the
`defaultdict(list)` established at construction, with the key absent:
`add_comparator k f1` then `add_comparator k f2` yields
`comparators[k] == [f1, f2]` (the list created when the key was absent),
`delete_comparator` removes the entry and is a no-op when the key is
absent, and reading the key after deletion yields an empty list.  After
`_clean` (or an `_update` that replaced the mapping with a plain dict) the
add and the read raise instead. -/
theorem comparator_ops_on_default_mapping (c : ScenarioConfig C)
    (es : List (String × CVal C)) (k : String) (f1 f2 : C)
    (h1 : c.comparators = .cmap true es) (h2 : getD es k = none) :
    ∃ c1 c2 c3,
      c.add_comparator k f1 = some c1
      ∧ c1.add_comparator k f2 = some c2
      ∧ c2.readComparator k = some (.many [f1, f2])
      ∧ c2.delete_comparator k = some c3
      ∧ c3.readComparator k = some (.many [])
      ∧ c.delete_comparator k = some c := by
  have hkeys : ∀ p ∈ es, p.1 ≠ k := (getD_eq_none es k).mp h2
  have hcontains : containsKey es k = false := by rw [containsKey, h2]; rfl
  refine ⟨{ c with comparators := .cmap true (es ++ [(k, .many [f1])]) },
          { c with comparators := .cmap true (es ++ [(k, .many [f1, f2])]) },
          { c with comparators := .cmap true es }, ?_, ?_, ?_, ?_, ?_, ?_⟩
  · rw [add_comparator_cmap c true es k f1 h1, h2]
    rfl
  · rw [add_comparator_cmap _ true (es ++ [(k, .many [f1])]) k f2 rfl]
    have hg1 : getD (es ++ [(k, CVal.many [f1])]) k = some (.many [f1]) := by
      rw [getD_append, h2, Option.none_or, getD_cons]
      simp
    rw [hg1]
    show some { c with comparators := Val.cmap true (setKey (es ++ [(k, CVal.many [f1])]) k (CVal.many ([f1] ++ [f2]))) } = _
    rw [setKey_append_self es k (CVal.many [f1]) (CVal.many ([f1] ++ [f2])) hkeys]
    rfl
  · rw [readComparator_cmap _ true (es ++ [(k, .many [f1, f2])]) k rfl]
    have hg2 : getD (es ++ [(k, CVal.many [f1, f2])]) k = some (.many [f1, f2]) := by
      rw [getD_append, h2, Option.none_or, getD_cons]
      simp
    rw [hg2]
  · rw [delete_comparator_cmap _ true (es ++ [(k, .many [f1, f2])]) k rfl,
        eraseKey_append_self es k (CVal.many [f1, f2]) hkeys]
  · rw [readComparator_cmap _ true es k rfl, h2]
    rfl
  · rw [delete_comparator_cmap c true es k h1, eraseKey_of_not_contains es k hcontains,
        ← h1]

/-- C6 (amended) witness at a concrete input. -/
theorem comparator_ops_on_default_mapping_witness :
    c7Scenario.comparators = Val.cmap true [("dn1", CVal.many [7])]
    ∧ getD [("dn1", CVal.many [7])] "x2" = none
    ∧ ∃ c1 c2 c3,
        c7Scenario.add_comparator "x2" 1 = some c1
        ∧ c1.add_comparator "x2" 2 = some c2
        ∧ c2.readComparator "x2" = some (.many [1, 2])
        ∧ c2.delete_comparator "x2" = some c3
        ∧ c3.readComparator "x2" = some (.many [])
        ∧ c7Scenario.delete_comparator "x2" = some c7Scenario :=
  ⟨rfl, rfl,
   comparator_ops_on_default_mapping c7Scenario [("dn1", CVal.many [7])] "x2" 1 2 rfl rfl⟩

/-- C7 counterexample: `add_comparator` performs no validation — it stores
the key "1bad", which fails the identifier-validation rule, so the
invariant is not preserved by `add_comparator`. -/
theorem add_comparator_accepts_invalid_key :
    ((emptyScenario.bind fun c => c.add_comparator "1bad" 7).map
        fun c => c.readComparator "1bad") = some (some (.many [7]))
    ∧ isValidId "1bad" = false :=
  ⟨rfl, rfl⟩

/-- C7 (amended): every key of the comparator mapping is a validated
identifier immediately after a successful construction (the constructor
validates each comparator key); by the counterexample, `add_comparator`
(and likewise `_update`, which assigns the popped document value without
validation) does not preserve this invariant. -/
theorem comparator_keys_validated_at_construction {id : String}
    {t a f cm : Val C} {p : Doc C} {c : ScenarioConfig C}
    (h : mk? id t a f cm p = some c) :
    ∃ es, c.comparators = .cmap true es ∧ ∀ kv ∈ es, isValidId kv.1 = true :=
  mk?_comparators_valid h

/-- C7 (amended) witness at a concrete input. -/
theorem comparator_keys_validated_at_construction_witness :
    (mk? "s" Val.null Val.null Val.null (Val.cmap false [("dn1", CVal.one 7)])
        ([] : Doc Nat) = some c7Scenario)
    ∧ ∃ es, c7Scenario.comparators = .cmap true es
        ∧ ∀ kv ∈ es, isValidId kv.1 = true :=
  ⟨rfl, @comparator_keys_validated_at_construction Nat "s" Val.null Val.null Val.null
     (Val.cmap false [("dn1", CVal.one 7)]) [] c7Scenario (by rfl)⟩

/-- C8 counterexample: `_update` with a document carrying an explicit null
for the `tasks` key and no default section leaves the field `None`, which
is not list-typed — list-typedness is not maintained by every operation. -/
theorem update_null_tasks_breaks_list_invariant :
    (emptyScenario.map fun c =>
        ((c._update [(_TASKS_KEY, Val.null)] none)._tasks).isList) = some false :=
  rfl

/-- C8 (amended): after construction with arguments of the declared types,
`tasks` and `additional_data_nodes` are list-typed — a null argument
normalizes to the empty list, a singular config wraps into a one-element
list, a list argument is kept as is; by the counterexample, `_update` with
an explicit null and no default section can break list-typedness. -/
theorem construction_normalizes_reference_lists {id : String}
    {t a f cm : Val C} {p : Doc C} {c : ScenarioConfig C}
    (h : mk? id t a f cm p = some c) :
    ((t = .null ∨ (∃ tc, t = .task tc) ∨ ∃ xs, t = .list xs) →
        c._tasks.isList = true)
    ∧ (t = .null → c._tasks = .list [])
    ∧ (∀ tc, t = .task tc → c._tasks = .list [.task tc])
    ∧ (∀ xs, t = .list xs → c._tasks = .list xs)
    ∧ ((a = .null ∨ (∃ dn, a = .dataNode dn) ∨ ∃ xs, a = .list xs) →
        c._additional_data_nodes.isList = true)
    ∧ (a = .null → c._additional_data_nodes = .list [])
    ∧ (∀ dn, a = .dataNode dn → c._additional_data_nodes = .list [.dataNode dn])
    ∧ (∀ xs, a = .list xs → c._additional_data_nodes = .list xs) := by
  obtain ⟨-, -, ht, ha, -, -, -⟩ := mk?_inv h
  refine ⟨?_, ?_, ?_, ?_, ?_, ?_, ?_, ?_⟩
  · rintro (rfl | ⟨tc, rfl⟩ | ⟨xs, rfl⟩)
    · rw [ht, normTasksArg_null]; rfl
    · rw [ht, normTasksArg_task]; rfl
    · rw [ht, normTasksArg_list]; rfl
  · rintro rfl; rw [ht, normTasksArg_null]
  · rintro tc rfl; rw [ht, normTasksArg_task]
  · rintro xs rfl; rw [ht, normTasksArg_list]
  · rintro (rfl | ⟨dn, rfl⟩ | ⟨xs, rfl⟩)
    · rw [ha, normAdnArg_null]; rfl
    · rw [ha, normAdnArg_dataNode]; rfl
    · rw [ha, normAdnArg_list]; rfl
  · rintro rfl; rw [ha, normAdnArg_null]
  · rintro dn rfl; rw [ha, normAdnArg_dataNode]
  · rintro xs rfl; rw [ha, normAdnArg_list]

/-- C8 (amended) witness at a concrete input. -/
theorem construction_normalizes_reference_lists_witness :
    (mk? "s" (Val.task taskT1) (Val.dataNode dnC) Val.null Val.null
        ([] : Doc Nat) = some c8Scenario)
    ∧ c8Scenario._tasks = .list [.task taskT1]
    ∧ c8Scenario._additional_data_nodes = .list [.dataNode dnC] :=
  ⟨rfl,
   (@construction_normalizes_reference_lists Nat "s" (Val.task taskT1)
     (Val.dataNode dnC) Val.null Val.null [] c8Scenario (by rfl)).2.2.1 taskT1 rfl,
   (@construction_normalizes_reference_lists Nat "s" (Val.task taskT1)
     (Val.dataNode dnC) Val.null Val.null [] c8Scenario (by rfl)).2.2.2.2.2.2.1 dnC rfl⟩

/-- C9: `data_node_configs` and `data_nodes` return the same value — the
identity-deduplicated union of the additional data nodes with every task's
inputs and outputs; a member appears once no matter how many tasks
reference it, and tasks with empty input/output lists are tolerated. -/
theorem derived_data_node_set_dedup (c : ScenarioConfig C)
    (adns : List DataNodeConfig) (ts : List TaskConfig)
    (h1 : c._additional_data_nodes.asDataNodeList = some adns)
    (h2 : c._tasks.asTaskList = some ts) :
    c.data_node_configs = c.data_nodes
    ∧ ∃ s, c.data_node_configs = some s
        ∧ ∀ x, x ∈ s ↔ (x ∈ adns ∨ ∃ t ∈ ts, x ∈ t.inputs ∨ x ∈ t.outputs) := by
  refine ⟨rfl,
    ⟨ts.foldl (fun s t => (s ∪ t.inputs.toFinset) ∪ t.outputs.toFinset) adns.toFinset,
     ?_, ?_⟩⟩
  · rw [data_node_configs, getAllUniqueDataNodes, h1, h2]
    rfl
  · intro x
    rw [mem_foldl_union, List.mem_toFinset]

/-- C9 witness: the dedup-law instance with tasks `t1` (outputs A), `t2`
(inputs A, outputs B) and additional data nodes {C}: the derived set is
exactly {A, B, C}. -/
theorem derived_data_node_set_dedup_witness :
    (dedupScenario._additional_data_nodes.asDataNodeList = some [dnC])
    ∧ (dedupScenario._tasks.asTaskList = some [taskT1, taskT2])
    ∧ (dedupScenario.data_node_configs = dedupScenario.data_nodes
        ∧ ∃ s, dedupScenario.data_node_configs = some s
            ∧ ∀ x, x ∈ s ↔
                (x ∈ [dnC] ∨ ∃ t ∈ [taskT1, taskT2], x ∈ t.inputs ∨ x ∈ t.outputs)) :=
  ⟨rfl, rfl,
   derived_data_node_set_dedup dedupScenario [dnC] [taskT1, taskT2] rfl rfl⟩

/-- C4: for a document with neither a `tasks` nor an
`additional_data_nodes` key but with a `pipelines` key over a list of ids,
`_from_dict` yields tasks equal to the concatenation, in pipeline-list
order, of the tasks of each pipeline id that resolves, an empty
`additional_data_nodes`, and a re-serialization with no `pipelines` key
(the key is consumed, not passed into the property bag). -/
theorem from_dict_pipeline_migration {d : Doc C} {id : String} {cfg : Config C}
    {S : ScenarioConfig C} {d' : Doc C} {ps : List (Val C)}
    (h1 : containsKey d _TASKS_KEY = false)
    (h2 : containsKey d _ADDITIONAL_DATA_NODES_KEY = false)
    (h3 : getD d _PIPELINES_KEY = some (.list ps))
    (h4 : ∀ v ∈ ps, v.hashable = true)
    (h5 : _from_dict d id cfg = some (S, d')) :
    S._tasks = .list (((ps.filterMap (lookupSection cfg.pipelineSections)).flatMap
        PipelineConfig.tasks).map .task)
    ∧ S._additional_data_nodes = .list []
    ∧ containsKey S._to_dict _PIPELINES_KEY = false := by
  obtain ⟨tasks, adns, d1, hb, hd', hm⟩ := _from_dict_inv h5
  have hc : (containsKey (eraseKey d _ID_KEY) _TASKS_KEY
      || containsKey (eraseKey d _ID_KEY) _ADDITIONAL_DATA_NODES_KEY) = false := by
    rw [containsKey_eraseKey_ne _ _ _ (by decide),
        containsKey_eraseKey_ne _ _ _ (by decide), h1, h2]
    rfl
  obtain ⟨tasks', hres, heq⟩ := fromDictBranch_legacy hc hb
  have htasks : tasks = tasks' := congrArg (fun r => r.1) heq
  have hadns : adns = [] := congrArg (fun r => r.2.1) heq
  have hd1 : d1 = eraseKey (eraseKey d _ID_KEY) _PIPELINES_KEY :=
    congrArg (fun r => r.2.2) heq
  have hg : getD (eraseKey d _ID_KEY) _PIPELINES_KEY = some (.list ps) := by
    rw [getD_eraseKey, if_neg (by decide), h3]
  rw [hg, show (some (Val.list ps)).getD (Val.null : Val C) = Val.list ps from rfl,
      resolvePipelinesVal_list cfg.pipelineSections ps h4] at hres
  have hts : tasks' = (ps.filterMap (lookupSection cfg.pipelineSections)).flatMap
      PipelineConfig.tasks := (Option.some.inj hres).symm
  obtain ⟨-, -, hT, hA, -, hp, -⟩ := mk?_inv hm
  refine ⟨?_, ?_, ?_⟩
  · rw [hT, normTasksArg_list, htasks, hts]
  · rw [hA, normAdnArg_list, hadns]
    rfl
  · rw [_to_dict, containsKey_updateD]
    have hbase : containsKey [(_COMPARATOR_KEY, S.comparators),
        (_TASKS_KEY, S._tasks),
        (_ADDITIONAL_DATA_NODES_KEY, S._additional_data_nodes),
        (_FREQUENCY_KEY, S.frequency)] _PIPELINES_KEY = false := by
      rw [containsKey_cons, containsKey_cons, containsKey_cons, containsKey_cons,
          containsKey_nil]
      show ((_COMPARATOR_KEY == _PIPELINES_KEY)
        || ((_TASKS_KEY == _PIPELINES_KEY)
        || ((_ADDITIONAL_DATA_NODES_KEY == _PIPELINES_KEY)
        || ((_FREQUENCY_KEY == _PIPELINES_KEY) || false)))) = false
      decide
    have hprops : containsKey S._properties _PIPELINES_KEY = false := by
      rw [hp, hd1, containsKey_eraseKey_ne _ _ _ (by decide),
          containsKey_eraseKey_ne _ _ _ (by decide), containsKey_eraseKey_self]
    rw [hbase, hprops]
    rfl

/-- C4 witness at a concrete input: pipelines `[p1, nope]` where `p1` holds
tasks `t1, t2` and `nope` is unknown. -/
theorem from_dict_pipeline_migration_witness :
    containsKey c4Doc _TASKS_KEY = false
    ∧ containsKey c4Doc _ADDITIONAL_DATA_NODES_KEY = false
    ∧ getD c4Doc _PIPELINES_KEY = some (.list [.str "p1", .str "nope"])
    ∧ _from_dict c4Doc "s" cfgEx = some (c4Result, [])
    ∧ (c4Result._tasks
        = .list (((((([Val.str "p1", Val.str "nope"] : List (Val Nat)).filterMap
            (lookupSection cfgEx.pipelineSections)).flatMap
            PipelineConfig.tasks)).map .task))
        ∧ c4Result._additional_data_nodes = .list []
        ∧ containsKey c4Result._to_dict _PIPELINES_KEY = false) :=
  ⟨rfl, rfl, rfl, rfl,
   @from_dict_pipeline_migration Nat c4Doc "s" cfgEx c4Result []
     ([Val.str "p1", Val.str "nope"] : List (Val Nat)) rfl rfl rfl (by decide) (by rfl)⟩

/-- C5: `_from_dict` never raises on an id that does not resolve: for a
new-shape document whose `tasks` and `additional_data_nodes` entries are
lists of id strings, and likewise for a legacy document whose `pipelines`
entry is a list of id strings, deserialization succeeds and the resulting
lists contain exactly the entries whose ids resolved, in document order. -/
theorem from_dict_drops_unresolved_references (cfg : Config C) :
    (∀ (d : Doc C) (id : String) (ts as : List String),
      getD d _TASKS_KEY = some (.list (ts.map .str)) →
      getD d _ADDITIONAL_DATA_NODES_KEY = some (.list (as.map .str)) →
      containsKey d _COMPARATOR_KEY = false →
      isValidId id = true →
      ∃ S d', _from_dict d id cfg = some (S, d')
        ∧ S._tasks = .list ((ts.filterMap (getD cfg.taskSections)).map .task)
        ∧ S._additional_data_nodes
            = .list ((as.filterMap (getD cfg.dataNodeSections)).map .dataNode))
    ∧ (∀ (d : Doc C) (id : String) (ps : List String),
      containsKey d _TASKS_KEY = false →
      containsKey d _ADDITIONAL_DATA_NODES_KEY = false →
      getD d _PIPELINES_KEY = some (.list (ps.map .str)) →
      containsKey d _COMPARATOR_KEY = false →
      isValidId id = true →
      ∃ S d', _from_dict d id cfg = some (S, d')
        ∧ S._tasks = .list (((ps.filterMap (getD cfg.pipelineSections)).flatMap
            PipelineConfig.tasks).map .task)) := by
  constructor
  · intro d id ts as hts has hcomp hid
    have hgt : getD (eraseKey d _ID_KEY) _TASKS_KEY = some (.list (ts.map .str)) := by
      rw [getD_eraseKey, if_neg (by decide), hts]
    have hga : getD (eraseKey (eraseKey d _ID_KEY) _TASKS_KEY)
        _ADDITIONAL_DATA_NODES_KEY = some (.list (as.map .str)) := by
      rw [getD_eraseKey, if_neg (by decide), getD_eraseKey, if_neg (by decide), has]
    have hc : (containsKey (eraseKey d _ID_KEY) _TASKS_KEY
        || containsKey (eraseKey d _ID_KEY) _ADDITIONAL_DATA_NODES_KEY) = true := by
      rw [containsKey, hgt]
      rfl
    have hhasht : ∀ v ∈ ts.map (Val.str : String → Val C), v.hashable = true := by
      intro v hv
      rcases List.mem_map.mp hv with ⟨s, -, rfl⟩
      rfl
    have hhasha : ∀ v ∈ as.map (Val.str : String → Val C), v.hashable = true := by
      intro v hv
      rcases List.mem_map.mp hv with ⟨s, -, rfl⟩
      rfl
    have hrt : resolveListVal cfg.taskSections
        ((getD (eraseKey d _ID_KEY) _TASKS_KEY).getD .null)
        = some (ts.filterMap (getD cfg.taskSections)) := by
      rw [hgt,
          show (some (Val.list (ts.map (Val.str : String → Val C)))).getD Val.null
            = Val.list (ts.map .str) from rfl,
          resolveListVal_list _ _ hhasht, filterMap_lookup_str]
    have hra : resolveListVal cfg.dataNodeSections
        ((getD (eraseKey (eraseKey d _ID_KEY) _TASKS_KEY)
          _ADDITIONAL_DATA_NODES_KEY).getD .null)
        = some (as.filterMap (getD cfg.dataNodeSections)) := by
      rw [hga,
          show (some (Val.list (as.map (Val.str : String → Val C)))).getD Val.null
            = Val.list (as.map .str) from rfl,
          resolveListVal_list _ _ hhasha, filterMap_lookup_str]
    have hb := fromDictBranch_new_eq hc hrt hra
    have hgc : getD (eraseKey (eraseKey (eraseKey (eraseKey d _ID_KEY) _TASKS_KEY)
        _ADDITIONAL_DATA_NODES_KEY) _FREQUENCY_KEY) _COMPARATOR_KEY = none := by
      rw [getD_eraseKey, if_neg (by decide), getD_eraseKey, if_neg (by decide),
          getD_eraseKey, if_neg (by decide), getD_eraseKey, if_neg (by decide)]
      exact not_containsKey_getD d _COMPARATOR_KEY hcomp
    have hce : initComparators ((getD (eraseKey (eraseKey (eraseKey (eraseKey d
        _ID_KEY) _TASKS_KEY) _ADDITIONAL_DATA_NODES_KEY) _FREQUENCY_KEY)
        _COMPARATOR_KEY).getD (Val.cmap false [])) = some [] := by
      rw [hgc]
      rfl
    refine ⟨_, _, _from_dict_eq hb (mk?_eq hce hid), ?_, ?_⟩
    · exact normTasksArg_list _
    · exact normAdnArg_list _
  · intro d id ps ht ha hps hcomp hid
    have hcf : (containsKey (eraseKey d _ID_KEY) _TASKS_KEY
        || containsKey (eraseKey d _ID_KEY) _ADDITIONAL_DATA_NODES_KEY) = false := by
      rw [containsKey_eraseKey_ne _ _ _ (by decide),
          containsKey_eraseKey_ne _ _ _ (by decide), ht, ha]
      rfl
    have hgp : getD (eraseKey d _ID_KEY) _PIPELINES_KEY
        = some (.list (ps.map .str)) := by
      rw [getD_eraseKey, if_neg (by decide), hps]
    have hhash : ∀ v ∈ ps.map (Val.str : String → Val C), v.hashable = true := by
      intro v hv
      rcases List.mem_map.mp hv with ⟨s, -, rfl⟩
      rfl
    have hrp : resolvePipelinesVal cfg.pipelineSections
        ((getD (eraseKey d _ID_KEY) _PIPELINES_KEY).getD .null)
        = some ((ps.filterMap (getD cfg.pipelineSections)).flatMap
            PipelineConfig.tasks) := by
      rw [hgp,
          show (some (Val.list (ps.map (Val.str : String → Val C)))).getD Val.null
            = Val.list (ps.map .str) from rfl,
          resolvePipelinesVal_list _ _ hhash, filterMap_lookup_str]
    have hb := fromDictBranch_legacy_eq hcf hrp
    have hgc : getD (eraseKey (eraseKey (eraseKey d _ID_KEY) _PIPELINES_KEY)
        _FREQUENCY_KEY) _COMPARATOR_KEY = none := by
      rw [getD_eraseKey, if_neg (by decide), getD_eraseKey, if_neg (by decide),
          getD_eraseKey, if_neg (by decide)]
      exact not_containsKey_getD d _COMPARATOR_KEY hcomp
    have hce : initComparators ((getD (eraseKey (eraseKey (eraseKey d _ID_KEY)
        _PIPELINES_KEY) _FREQUENCY_KEY) _COMPARATOR_KEY).getD
        (Val.cmap false [])) = some [] := by
      rw [hgc]
      rfl
    refine ⟨_, _, _from_dict_eq hb (mk?_eq hce hid), ?_⟩
    exact normTasksArg_list _

/-- C5 witness at concrete inputs exercising both document shapes. -/
theorem from_dict_drops_unresolved_references_witness :
    getD c5NewDoc _TASKS_KEY = some (.list (["t1", "zz"].map .str))
    ∧ getD c5NewDoc _ADDITIONAL_DATA_NODES_KEY = some (.list (["C", "qq"].map .str))
    ∧ containsKey c5NewDoc _COMPARATOR_KEY = false
    ∧ isValidId "s" = true
    ∧ (∃ S d', _from_dict c5NewDoc "s" cfgEx = some (S, d')
        ∧ S._tasks = .list ((["t1", "zz"].filterMap (getD cfgEx.taskSections)).map .task)
        ∧ S._additional_data_nodes
            = .list ((["C", "qq"].filterMap (getD cfgEx.dataNodeSections)).map .dataNode))
    ∧ containsKey c5LegacyDoc _TASKS_KEY = false
    ∧ containsKey c5LegacyDoc _ADDITIONAL_DATA_NODES_KEY = false
    ∧ getD c5LegacyDoc _PIPELINES_KEY = some (.list (["p1", "nope"].map .str))
    ∧ (∃ S d', _from_dict c5LegacyDoc "s" cfgEx = some (S, d')
        ∧ S._tasks = .list (((["p1", "nope"].filterMap
            (getD cfgEx.pipelineSections)).flatMap PipelineConfig.tasks).map .task)) :=
  ⟨rfl, rfl, rfl, rfl,
   (from_dict_drops_unresolved_references cfgEx).1 c5NewDoc "s" ["t1", "zz"]
     ["C", "qq"] rfl rfl rfl rfl,
   rfl, rfl, rfl,
   (from_dict_drops_unresolved_references cfgEx).2 c5LegacyDoc "s" ["p1", "nope"]
     rfl rfl rfl rfl rfl⟩

/-- C10 counterexample: when the document contains a `tasks` key alongside
a `pipelines` key, `_from_dict` takes the new-shape branch and does not pop
`pipelines`: the key survives in the caller's document (and lands in the
property bag). -/
theorem from_dict_retains_pipelines_key_in_new_shape :
    ((_from_dict [(_TASKS_KEY, Val.list []), (_PIPELINES_KEY, Val.list [])]
        "s" cfgEx).map fun r => containsKey r.2 _PIPELINES_KEY) = some true :=
  rfl

/-- C10 (amended): after a successful `_from_dict` the document no longer
contains the `id`, `tasks`, `additional_data_nodes`, `frequency` or
`comparators` keys, and every remaining key is the resulting property bag;
the `pipelines` key, however, is consumed only when neither `tasks` nor
`additional_data_nodes` was present (by the counterexample it is retained
otherwise). -/
theorem from_dict_consumes_reserved_keys {as_dict : Doc C} {id : String}
    {cfg : Config C} {S : ScenarioConfig C} {d' : Doc C}
    (h : _from_dict as_dict id cfg = some (S, d')) :
    containsKey d' _ID_KEY = false
    ∧ containsKey d' _TASKS_KEY = false
    ∧ containsKey d' _ADDITIONAL_DATA_NODES_KEY = false
    ∧ containsKey d' _FREQUENCY_KEY = false
    ∧ containsKey d' _COMPARATOR_KEY = false
    ∧ (containsKey as_dict _TASKS_KEY = false →
        containsKey as_dict _ADDITIONAL_DATA_NODES_KEY = false →
        containsKey d' _PIPELINES_KEY = false)
    ∧ S._properties = d' := by
  obtain ⟨tasks, adns, d1, hb, hd', hm⟩ := _from_dict_inv h
  obtain ⟨-, -, -, -, -, hp, -⟩ := mk?_inv hm
  by_cases hc : (containsKey (eraseKey as_dict _ID_KEY) _TASKS_KEY
      || containsKey (eraseKey as_dict _ID_KEY) _ADDITIONAL_DATA_NODES_KEY) = true
  · obtain ⟨tasks', adns', -, -, heq⟩ := fromDictBranch_new hc hb
    have hd1 : d1 = eraseKey (eraseKey (eraseKey as_dict _ID_KEY) _TASKS_KEY)
        _ADDITIONAL_DATA_NODES_KEY := congrArg (fun r => r.2.2) heq
    subst hd1
    subst hd'
    refine ⟨?_, ?_, ?_, ?_, ?_, ?_, hp⟩
    · rw [containsKey_eraseKey_ne _ _ _ (by decide),
          containsKey_eraseKey_ne _ _ _ (by decide),
          containsKey_eraseKey_ne _ _ _ (by decide),
          containsKey_eraseKey_ne _ _ _ (by decide), containsKey_eraseKey_self]
    · rw [containsKey_eraseKey_ne _ _ _ (by decide),
          containsKey_eraseKey_ne _ _ _ (by decide),
          containsKey_eraseKey_ne _ _ _ (by decide), containsKey_eraseKey_self]
    · rw [containsKey_eraseKey_ne _ _ _ (by decide),
          containsKey_eraseKey_ne _ _ _ (by decide), containsKey_eraseKey_self]
    · rw [containsKey_eraseKey_ne _ _ _ (by decide), containsKey_eraseKey_self]
    · rw [containsKey_eraseKey_self]
    · intro h1 h2
      exfalso
      have e1 : containsKey (eraseKey as_dict _ID_KEY) _TASKS_KEY = false := by
        rw [containsKey_eraseKey_ne _ _ _ (by decide)]
        exact h1
      have e2 : containsKey (eraseKey as_dict _ID_KEY) _ADDITIONAL_DATA_NODES_KEY
          = false := by
        rw [containsKey_eraseKey_ne _ _ _ (by decide)]
        exact h2
      rw [e1, e2] at hc
      simp at hc
  · rw [Bool.not_eq_true] at hc
    obtain ⟨tasks', -, heq⟩ := fromDictBranch_legacy hc hb
    have hd1 : d1 = eraseKey (eraseKey as_dict _ID_KEY) _PIPELINES_KEY :=
      congrArg (fun r => r.2.2) heq
    subst hd1
    subst hd'
    have hpair := Bool.or_eq_false_iff.mp hc
    have hta : containsKey as_dict _TASKS_KEY = false := by
      rw [← containsKey_eraseKey_ne as_dict _TASKS_KEY _ID_KEY (by decide)]
      exact hpair.1
    have hada : containsKey as_dict _ADDITIONAL_DATA_NODES_KEY = false := by
      rw [← containsKey_eraseKey_ne as_dict _ADDITIONAL_DATA_NODES_KEY _ID_KEY (by decide)]
      exact hpair.2
    refine ⟨?_, ?_, ?_, ?_, ?_, ?_, hp⟩
    · rw [containsKey_eraseKey_ne _ _ _ (by decide),
          containsKey_eraseKey_ne _ _ _ (by decide),
          containsKey_eraseKey_ne _ _ _ (by decide), containsKey_eraseKey_self]
    · rw [containsKey_eraseKey_ne _ _ _ (by decide),
          containsKey_eraseKey_ne _ _ _ (by decide),
          containsKey_eraseKey_ne _ _ _ (by decide),
          containsKey_eraseKey_ne _ _ _ (by decide)]
      exact hta
    · rw [containsKey_eraseKey_ne _ _ _ (by decide),
          containsKey_eraseKey_ne _ _ _ (by decide),
          containsKey_eraseKey_ne _ _ _ (by decide),
          containsKey_eraseKey_ne _ _ _ (by decide)]
      exact hada
    · rw [containsKey_eraseKey_ne _ _ _ (by decide), containsKey_eraseKey_self]
    · rw [containsKey_eraseKey_self]
    · intro _ _
      rw [containsKey_eraseKey_ne _ _ _ (by decide),
          containsKey_eraseKey_ne _ _ _ (by decide), containsKey_eraseKey_self]

/-- C10 (amended) witness at a concrete input. -/
theorem from_dict_consumes_reserved_keys_witness :
    (_from_dict c10Doc "s" cfgEx = some (c10Result, c10Rest))
    ∧ (containsKey c10Rest _ID_KEY = false
        ∧ containsKey c10Rest _TASKS_KEY = false
        ∧ containsKey c10Rest _ADDITIONAL_DATA_NODES_KEY = false
        ∧ containsKey c10Rest _FREQUENCY_KEY = false
        ∧ containsKey c10Rest _COMPARATOR_KEY = false
        ∧ (containsKey c10Doc _TASKS_KEY = false →
            containsKey c10Doc _ADDITIONAL_DATA_NODES_KEY = false →
            containsKey c10Rest _PIPELINES_KEY = false)
        ∧ c10Result._properties = c10Rest) :=
  ⟨rfl, @from_dict_consumes_reserved_keys Nat c10Doc "s" cfgEx c10Result c10Rest (by rfl)⟩

end ScenarioConfig

end TaipyScenario
